import Mathlib

/-!
Verification development for the trigger-batch stock screening engine
(`trigger_batch.py`).  The pandas data model is shallowly embedded:

* a numeric cell is an `Option ℚ`, with `none` playing the role of IEEE NaN
  (the code only ever produces NaN through `replace(0, nan)` and arithmetic
  on NaN, never through a division by a non-NaN zero, so `Option` propagation
  is an exact model of the float behaviour the code relies on);
* a row is an association list from column name to cell value, in column
  insertion order, as a pandas frame accumulates derived columns;
* a DataFrame is a list of (ticker, row) pairs in index order.

Comparisons against NaN evaluate false (as in NumPy), `!=` against NaN
evaluates true, and column reductions (`max`, `min`, `mean`) skip NaN,
matching the pandas `skipna=True` defaults used by the code.
-/

namespace TriggerBatch

/-- Cell value of a DataFrame: a (possibly undefined) number, a boolean or a
string. `num none` models a float NaN. -/
inductive Val where
  | num (q : Option ℚ)
  | bool (b : Bool)
  | str (s : String)
deriving DecidableEq

abbrev Ticker := String

/-- Row of a DataFrame: column name to value, in column insertion order. -/
abbrev Row := List (String × Val)

/-- DataFrame: ticker-indexed rows, in index order. -/
abbrev DF := List (Ticker × Row)

/-! NaN-aware arithmetic: `none` is NaN and propagates. -/

/-- NaN-propagating addition. -/
def oadd : Option ℚ → Option ℚ → Option ℚ
  | some a, some b => some (a + b)
  | _, _ => none

/-- NaN-propagating subtraction. -/
def osub : Option ℚ → Option ℚ → Option ℚ
  | some a, some b => some (a - b)
  | _, _ => none

/-- NaN-propagating multiplication. -/
def omul : Option ℚ → Option ℚ → Option ℚ
  | some a, some b => some (a * b)
  | _, _ => none

/-- NaN-propagating division.  The code divides only by values that are
either NaN or provably nonzero (`replace(0, nan)` guards the one risky
denominator), so mapping a zero denominator to undefined as well is sound. -/
def odiv : Option ℚ → Option ℚ → Option ℚ
  | some a, some b => if b = 0 then none else some (a / b)
  | _, _ => none

/-- NaN-propagating absolute value (pandas `Series.abs`). -/
def oabs : Option ℚ → Option ℚ
  | some a => some |a|
  | none => none

/-- Comparison `≥`: false whenever either side is NaN, as in NumPy. -/
def oGE (a b : Option ℚ) : Bool :=
  match a, b with
  | some a, some b => decide (b ≤ a)
  | _, _ => false

/-- Comparison `>`: false whenever either side is NaN. -/
def oGT (a b : Option ℚ) : Bool :=
  match a, b with
  | some a, some b => decide (b < a)
  | _, _ => false

/-- Comparison `≤`: false whenever either side is NaN. -/
def oLE (a b : Option ℚ) : Bool :=
  match a, b with
  | some a, some b => decide (a ≤ b)
  | _, _ => false

/-- Comparison `!=`: true whenever either side is NaN, as for float NaN. -/
def oNE (a b : Option ℚ) : Bool :=
  match a, b with
  | some a, some b => decide (a ≠ b)
  | _, _ => true

/-- `Series.replace(0, np.nan)` applied to one cell. -/
def replace0 : Option ℚ → Option ℚ
  | some q => if q = 0 then none else some q
  | none => none

/-! Row and column access. -/

/-- Value of column `c` in a row; `none` when the column is absent. -/
def rowGet (r : Row) (c : String) : Option Val :=
  (r.find? fun p => p.1 == c).map (·.2)

/-- Numeric value of column `c` in a row; NaN (`none`) when the column is
absent or non-numeric. -/
def rowGetNum (r : Row) (c : String) : Option ℚ :=
  match rowGet r c with
  | some (Val.num q) => q
  | _ => none

/-- Column assignment on one row: overwrite in place if the column exists
(pandas keeps a replaced column at its old position; columns are unique),
else append it. -/
def rowSet : Row → String → Val → Row
  | [], c, v => [(c, v)]
  | p :: ps, c, v => if p.1 = c then (c, v) :: ps else p :: rowSet ps c v

/-- Index (ticker list) of a DataFrame. -/
def dfIndex (df : DF) : List Ticker := df.map (·.1)

/-- `c in df.columns`, read off the first row (all frames built by the code
carry the same columns on every row). -/
def dfColMem (df : DF) (c : String) : Bool :=
  match df with
  | [] => false
  | (_, r) :: _ => (rowGet r c).isSome

/-- Cell lookup `df.loc[t, c]`; `none` when ticker or column is absent. -/
def dfGetCell (df : DF) (t : Ticker) (c : String) : Option Val :=
  (df.find? fun p => p.1 == t).bind fun p => rowGet p.2 c

/-- Numeric cell lookup, NaN when absent: this is how a binary Series
operation between two frames aligned on the same index reads the partner
frame (a missing ticker aligns to NaN). -/
def dfGetNum (df : DF) (t : Ticker) (c : String) : Option ℚ :=
  match dfGetCell df t c with
  | some (Val.num q) => q
  | _ => none

/-- Whole-column assignment `df[c] = f(...)`, where `f` may read the row
being written and (via closure) any aligned partner frame. -/
def dfSetCol (df : DF) (c : String) (f : Ticker → Row → Val) : DF :=
  df.map fun p => (p.1, rowSet p.2 c (f p.1 p.2))

/-- Masked column assignment `df.loc[mask, c] = f(...)`: rows failing the
mask are left untouched. -/
def dfMaskedSetCol (df : DF) (c : String) (mask : Ticker → Row → Bool)
    (f : Ticker → Row → Val) : DF :=
  df.map fun p => if mask p.1 p.2 then (p.1, rowSet p.2 c (f p.1 p.2)) else p

/-- Boolean-mask row filtering `df[mask]`. -/
def dfFilter (df : DF) (p : Ticker → Row → Bool) : DF :=
  df.filter fun x => p x.1 x.2

/-- `df.loc[[t]]`: every row labelled `t` (market snapshots are uniquely
keyed, so this is at most one row on well-formed data). -/
def dfLocOne (df : DF) (t : Ticker) : DF :=
  df.filter fun p => p.1 == t

/-- `df.loc[keys]` for a list of labels: the selected rows in key order. -/
def dfLocKeys (df : DF) (keys : List Ticker) : DF :=
  keys.filterMap fun t => (df.find? fun p => p.1 == t).map fun p => (t, p.2)

/-- `snapshot.index.intersection(prev.index)`: tickers of the first frame, in
its order, that the second frame also carries. -/
def commonIndex (df₁ df₂ : DF) : List Ticker :=
  (dfIndex df₁).filter fun t => (dfIndex df₂).contains t

/-- Defined (non-NaN) values of a column, in row order: the population seen
by the skipna reductions. -/
def colVals (df : DF) (c : String) : List ℚ :=
  df.filterMap fun p => rowGetNum p.2 c

/-- Maximum of a rational list, `none` on the empty list. -/
def qmaxL : List ℚ → Option ℚ
  | [] => none
  | q :: qs =>
    match qmaxL qs with
    | none => some q
    | some m => some (max q m)

/-- Minimum of a rational list, `none` on the empty list. -/
def qminL : List ℚ → Option ℚ
  | [] => none
  | q :: qs =>
    match qminL qs with
    | none => some q
    | some m => some (min q m)

/-- `df[c].max()` with pandas skipna: NaN only when no defined value exists. -/
def colMax (df : DF) (c : String) : Option ℚ := qmaxL (colVals df c)

/-- `df[c].min()` with pandas skipna. -/
def colMin (df : DF) (c : String) : Option ℚ := qminL (colVals df c)

/-- `df[c].mean()` with pandas skipna: sum of defined values over their
count, NaN when no value is defined. -/
def colMean (df : DF) (c : String) : Option ℚ :=
  let vs := colVals df c
  if vs.length = 0 then none else some (vs.sum / (vs.length : ℚ))

/-! Stable sorting, as the code's `sort_values` tie behaviour is modelled
deterministically: an element is inserted after exactly those earlier
elements that strictly precede it, so equal keys keep their incoming order
and NaN keys sink to the end (pandas puts NaN last for either direction). -/

/-- Insert `x` after every element that strictly precedes it. -/
def insertBy {α : Type} (prec : α → α → Bool) (x : α) : List α → List α
  | [] => [x]
  | y :: ys => if prec y x then y :: insertBy prec x ys else x :: y :: ys

/-- Stable insertion sort by the strict-precedence test `prec`. -/
def sortBy {α : Type} (prec : α → α → Bool) : List α → List α
  | [] => []
  | x :: xs => insertBy prec x (sortBy prec xs)

/-- Strict precedence of sort keys for `sort_values(..., ascending=False)`:
larger defined keys first, NaN last. -/
def descPrec (a b : Option ℚ) : Bool :=
  match a, b with
  | some a, some b => decide (b < a)
  | some _, none => true
  | _, _ => false

/-- Strict precedence for `ascending=True`: smaller defined keys first, NaN
last. -/
def ascPrec (a b : Option ℚ) : Bool :=
  match a, b with
  | some a, some b => decide (a < b)
  | some _, none => true
  | _, _ => false

/-- `df.sort_values(c, ascending=...)`. -/
def dfSortValues (df : DF) (c : String) (ascending : Bool) : DF :=
  sortBy
    (fun p q =>
      if ascending then ascPrec (rowGetNum p.2 c) (rowGetNum q.2 c)
      else descPrec (rowGetNum p.2 c) (rowGetNum q.2 c))
    df

/-! Shared pipeline helpers of `trigger_batch.py`. -/

/-- `apply_absolute_filters` (lines 85-99): keep rows with trade value at
least `min_value`, then keep rows whose volume is at least 20% of the mean
volume of the frame as passed in (the mean is over the pre-filter set). -/
def apply_absolute_filters (df : DF) (min_value : ℚ) : DF :=
  let filtered_df := dfFilter df fun _ r => oGE (rowGetNum r "거래대금") (some min_value)
  let avg_volume := colMean df "거래량"
  let min_volume := omul avg_volume (some (2/10))
  dfFilter filtered_df fun _ r => oGE (rowGetNum r "거래량") min_volume

/-- The in-place part of `normalize_and_score` (lines 101-134): min-max
normalize `ratio_col` and `abs_col` over the current frame (divisor fixed to
1 when max is not strictly above min) and add the weighted composite-score
column; the three assignments mutate the argument frame in the source. -/
def nsAddCols (df : DF) (ratio_col abs_col : String)
    (ratio_weight abs_weight : ℚ) : DF :=
  let ratio_max := colMax df ratio_col
  let ratio_min := colMin df ratio_col
  let abs_max := colMax df abs_col
  let abs_min := colMin df abs_col
  let ratio_range := if oGT ratio_max ratio_min then osub ratio_max ratio_min else some 1
  let abs_range := if oGT abs_max abs_min then osub abs_max abs_min else some 1
  let df := dfSetCol df (ratio_col ++ "_norm") fun _ r =>
    Val.num (odiv (osub (rowGetNum r ratio_col) ratio_min) ratio_range)
  let df := dfSetCol df (abs_col ++ "_norm") fun _ r =>
    Val.num (odiv (osub (rowGetNum r abs_col) abs_min) abs_range)
  dfSetCol df "복합점수" fun _ r =>
    Val.num (oadd (omul (rowGetNum r (ratio_col ++ "_norm")) (some ratio_weight))
      (omul (rowGetNum r (abs_col ++ "_norm")) (some abs_weight)))

/-- `normalize_and_score` proper: the column assignments (performed in place
on the argument frame in the source) followed by the composite-score sort. -/
def normalize_and_score (df : DF) (ratio_col abs_col : String)
    (ratio_weight abs_weight : ℚ) (ascending : Bool) : DF :=
  if df.isEmpty then df
  else dfSortValues (nsAddCols df ratio_col abs_col ratio_weight abs_weight)
    "복합점수" ascending

/-- One iteration of the `for col in [...]` normalization loop used by the
gap-up, value-to-cap and closing-strength triggers: add `col + "_norm"` with
the same zero-range guard as `normalize_and_score`. -/
def normColsStep (df : DF) (col : String) : DF :=
  let col_max := colMax df col
  let col_min := colMin df col
  let col_range := if oGT col_max col_min then osub col_max col_min else some 1
  dfSetCol df (col ++ "_norm") fun _ r =>
    Val.num (odiv (osub (rowGetNum r col) col_min) col_range)

/-- The whole `for col in [...]` normalization loop. -/
def normCols (df : DF) (cols : List String) : DF := cols.foldl normColsStep df

/-- `enhance_dataframe` (lines 136-142): attach the display-name column by
looking every index ticker up; the lookup has no error handling, so a
failing lookup propagates out of the call. -/
def enhance_dataframe (nameOf : Ticker → Except Unit String) (df : DF) :
    Except Unit DF :=
  if df.isEmpty then Except.ok df
  else df.mapM fun p => (nameOf p.1).map fun n => (p.1, rowSet p.2 "종목명" (Val.str n))

/-! Morning trigger 1: volume surge (lines 145-207). -/

/-- Stages of `trigger_morning_volume_surge` before the 30%-growth
pre-filter: restrict both frames to the common index, apply the absolute
filters, derive volume ratio (previous volume 0 replaced by NaN), volume
growth percent, intraday and day-over-day change, and the rising flag. -/
def surgeDerived (snapshot prev_snapshot : DF) : DF :=
  let common := commonIndex snapshot prev_snapshot
  let snap := dfLocKeys snapshot common
  let prev := dfLocKeys prev_snapshot common
  let snap := apply_absolute_filters snap 500000000
  let snap := dfSetCol snap "거래량비율" fun t r =>
    Val.num (odiv (rowGetNum r "거래량") (replace0 (dfGetNum prev t "거래량")))
  let snap := dfSetCol snap "거래량증가율" fun _ r =>
    Val.num (omul (osub (rowGetNum r "거래량비율") (some 1)) (some 100))
  let snap := dfSetCol snap "장중등락률" fun _ r =>
    Val.num (omul (osub (odiv (rowGetNum r "종가") (rowGetNum r "시가")) (some 1)) (some 100))
  let snap := dfSetCol snap "전일대비등락률" fun t r =>
    Val.num (omul (odiv (osub (rowGetNum r "종가") (dfGetNum prev t "종가"))
      (dfGetNum prev t "종가")) (some 100))
  dfSetCol snap "상승여부" fun _ r =>
    Val.bool (oGT (rowGetNum r "종가") (rowGetNum r "시가"))

/-- The 30%-growth pre-filter applied to the derived table (line 189);
a NaN growth value fails the comparison and is dropped here. -/
def surgeComputed (snapshot prev_snapshot : DF) : DF :=
  dfFilter (surgeDerived snapshot prev_snapshot) fun _ r =>
    oGE (rowGetNum r "거래량증가율") (some 30)

/-- `trigger_morning_volume_surge`: score the surviving candidates, cut to
the top `top_n` by composite score, keep the rising rows, and return the top
3 of those (with display names attached). -/
def trigger_morning_volume_surge (nameOf : Ticker → Except Unit String)
    (snapshot prev_snapshot : DF) (top_n : Nat) : Except Unit DF :=
  let snap := surgeComputed snapshot prev_snapshot
  if snap.isEmpty then Except.ok []
  else
    let scored := normalize_and_score snap "거래량증가율" "거래량" (6/10) (4/10) false
    let candidates := scored.take top_n
    let result := dfFilter candidates fun _ r =>
      decide (rowGet r "상승여부" = some (Val.bool true))
    if result.isEmpty then Except.ok []
    else enhance_dataframe nameOf ((dfSortValues result "복합점수" false).take 3)

/-! Morning trigger 2: gap-up momentum (lines 209-265). -/

/-- Stages of `trigger_morning_gap_up_momentum` up to the 1%-gap pre-filter. -/
def gapComputed (snapshot prev_snapshot : DF) : DF :=
  let common := commonIndex snapshot prev_snapshot
  let snap := dfLocKeys snapshot common
  let prev := dfLocKeys prev_snapshot common
  let snap := apply_absolute_filters snap 500000000
  let snap := dfSetCol snap "갭상승률" fun t r =>
    Val.num (omul (osub (odiv (rowGetNum r "시가") (dfGetNum prev t "종가")) (some 1)) (some 100))
  let snap := dfSetCol snap "장중등락률" fun _ r =>
    Val.num (omul (osub (odiv (rowGetNum r "종가") (rowGetNum r "시가")) (some 1)) (some 100))
  let snap := dfSetCol snap "전일대비등락률" fun t r =>
    Val.num (omul (odiv (osub (rowGetNum r "종가") (dfGetNum prev t "종가"))
      (dfGetNum prev t "종가")) (some 100))
  let snap := dfSetCol snap "상승지속" fun _ r =>
    Val.bool (oGT (rowGetNum r "종가") (rowGetNum r "시가"))
  dfFilter snap fun _ r => oGE (rowGetNum r "갭상승률") (some 1)

/-- `trigger_morning_gap_up_momentum`: normalize the three score metrics,
take the top `top_n` by the 0.5/0.3/0.2 composite, keep the still-rising
rows, add the combined-momentum column, and return the top 3. -/
def trigger_morning_gap_up_momentum (nameOf : Ticker → Except Unit String)
    (snapshot prev_snapshot : DF) (top_n : Nat) : Except Unit DF :=
  let snap := gapComputed snapshot prev_snapshot
  let candidates :=
    if ¬ snap.isEmpty then
      let snap := normCols snap ["갭상승률", "장중등락률", "거래대금"]
      let snap := dfSetCol snap "복합점수" fun _ r =>
        Val.num (oadd (oadd (omul (rowGetNum r "갭상승률_norm") (some (5/10)))
          (omul (rowGetNum r "장중등락률_norm") (some (3/10))))
          (omul (rowGetNum r "거래대금_norm") (some (2/10))))
      (dfSortValues snap "복합점수" false).take top_n
    else snap
  let result := dfFilter candidates fun _ r =>
    decide (rowGet r "상승지속" = some (Val.bool true))
  if result.isEmpty then Except.ok []
  else
    let result := dfSetCol result "종합모멘텀" fun _ r =>
      Val.num (oadd (rowGetNum r "갭상승률") (rowGetNum r "장중등락률"))
    enhance_dataframe nameOf ((dfSortValues result "복합점수" false).take 3)

/-! Morning trigger 3: value-to-cap concentration (lines 267-388). -/

/-- `snapshot.merge(cap_df[["시가총액"]], left_index, right_index, inner)`:
left rows whose ticker the cap frame also carries, with the market-cap
column appended. -/
def mergeCapCol (snapshot cap_df : DF) : DF :=
  snapshot.filterMap fun p =>
    match dfGetCell cap_df p.1 "시가총액" with
    | some v => some (p.1, p.2 ++ [("시가총액", v)])
    | none => none

/-- `candidates` of the value-to-cap trigger (lines 277-370), with every
defensive guard collapsed to the empty frame it returns. -/
def capCandidates (snapshot prev_snapshot cap_df : DF) (top_n : Nat) : DF :=
  if snapshot.isEmpty then []
  else if prev_snapshot.isEmpty then []
  else if cap_df.isEmpty then []
  else if ¬ dfColMem cap_df "시가총액" then []
  else
    let merged := mergeCapCol snapshot cap_df
    if ¬ dfColMem merged "시가총액" then []
    else
      let common := commonIndex merged prev_snapshot
      if common.length = 0 then []
      else
        let merged := dfLocKeys merged common
        let prev := dfLocKeys prev_snapshot common
        let merged := apply_absolute_filters merged 500000000
        if merged.isEmpty then []
        else if ¬ (["거래대금", "시가총액", "종가", "시가"].all fun c => dfColMem merged c) then []
        else
          let merged := dfSetCol merged "거래대금비율" fun _ r =>
            Val.num (omul (odiv (rowGetNum r "거래대금") (rowGetNum r "시가총액")) (some 100))
          let merged := dfSetCol merged "장중등락률" fun _ r =>
            Val.num (omul (osub (odiv (rowGetNum r "종가") (rowGetNum r "시가")) (some 1)) (some 100))
          let merged := dfSetCol merged "전일대비등락률" fun t r =>
            Val.num (omul (odiv (osub (rowGetNum r "종가") (dfGetNum prev t "종가"))
              (dfGetNum prev t "종가")) (some 100))
          let merged := dfSetCol merged "상승여부" fun _ r =>
            Val.bool (oGT (rowGetNum r "종가") (rowGetNum r "시가"))
          let merged := dfFilter merged fun _ r =>
            oGE (rowGetNum r "시가총액") (some 10000000000)
          if merged.isEmpty then []
          else
            let merged := normCols merged ["거래대금비율", "거래대금", "장중등락률"]
            let merged := dfSetCol merged "복합점수" fun _ r =>
              Val.num (oadd (oadd (omul (rowGetNum r "거래대금비율_norm") (some (5/10)))
                (omul (rowGetNum r "거래대금_norm") (some (3/10))))
                (omul (rowGetNum r "장중등락률_norm") (some (2/10))))
            (dfSortValues merged "복합점수" false).take top_n

/-- `result` of the value-to-cap trigger (line 375). -/
def capQualified (snapshot prev_snapshot cap_df : DF) (top_n : Nat) : DF :=
  dfFilter (capCandidates snapshot prev_snapshot cap_df top_n) fun _ r =>
    decide (rowGet r "상승여부" = some (Val.bool true))

/-- `trigger_morning_value_to_cap_ratio`: the defensively guarded pipeline.
Its guards and scoring live in `capCandidates` below (each early
`return pd.DataFrame()` is the empty candidate stage, and filtering an
empty stage returns the same empty frame the guard returned); any exception
inside the `try` block (only the name lookup can raise in this model) is
caught and turned into an empty result, so the function is total. -/
def trigger_morning_value_to_cap_ratio (nameOf : Ticker → Except Unit String)
    (snapshot prev_snapshot cap_df : DF) (top_n : Nat) : DF :=
  let result := dfFilter (capCandidates snapshot prev_snapshot cap_df top_n) fun _ r =>
    decide (rowGet r "상승여부" = some (Val.bool true))
  if result.isEmpty then []
  else
    match enhance_dataframe nameOf ((dfSortValues result "복합점수" false).take 3) with
    | Except.ok df => df
    | Except.error _ => []

/-! Afternoon trigger 1: daily rise top (lines 391-426): no post-score
qualifier; head(top_n) then head(3). -/

/-- `trigger_afternoon_daily_rise_top`. -/
def trigger_afternoon_daily_rise_top (nameOf : Ticker → Except Unit String)
    (snapshot prev_snapshot : DF) (top_n : Nat) : Except Unit DF :=
  let common := commonIndex snapshot prev_snapshot
  let snap := dfLocKeys snapshot common
  let prev := dfLocKeys prev_snapshot common
  let snap := apply_absolute_filters snap 1000000000
  let snap := dfSetCol snap "장중등락률" fun _ r =>
    Val.num (omul (osub (odiv (rowGetNum r "종가") (rowGetNum r "시가")) (some 1)) (some 100))
  let snap := dfSetCol snap "전일대비등락률" fun t r =>
    Val.num (omul (odiv (osub (rowGetNum r "종가") (dfGetNum prev t "종가"))
      (dfGetNum prev t "종가")) (some 100))
  let snap := dfFilter snap fun _ r => oGE (rowGetNum r "장중등락률") (some 3)
  if snap.isEmpty then Except.ok []
  else
    let scored := normalize_and_score snap "장중등락률" "거래대금" (6/10) (4/10) false
    let result := scored.take top_n
    enhance_dataframe nameOf (result.take 3)

/-! Afternoon trigger 2: closing strength (lines 428-488). -/

/-- Stages of `trigger_afternoon_closing_strength` up to the volume-increase
pre-filter: closing strength defaults to 0 and is overwritten on rows with a
nonzero high-low range; the volume-increase flag compares against NaN when
the previous volume was 0, hence evaluates false there. -/
def closingDerived (snapshot prev_snapshot : DF) : DF :=
  let common := commonIndex snapshot prev_snapshot
  let snap := dfLocKeys snapshot common
  let prev := dfLocKeys prev_snapshot common
  let snap := apply_absolute_filters snap 500000000
  let snap := dfSetCol snap "마감강도" fun _ _ => Val.num (some 0)
  let snap := dfMaskedSetCol snap "마감강도"
    (fun _ r => oNE (rowGetNum r "고가") (rowGetNum r "저가"))
    (fun _ r => Val.num (odiv (osub (rowGetNum r "종가") (rowGetNum r "저가"))
      (osub (rowGetNum r "고가") (rowGetNum r "저가"))))
  let snap := dfSetCol snap "거래량증가율" fun t r =>
    Val.num (omul (osub (odiv (rowGetNum r "거래량")
      (replace0 (dfGetNum prev t "거래량"))) (some 1)) (some 100))
  let snap := dfSetCol snap "장중등락률" fun _ r =>
    Val.num (omul (osub (odiv (rowGetNum r "종가") (rowGetNum r "시가")) (some 1)) (some 100))
  let snap := dfSetCol snap "전일대비등락률" fun t r =>
    Val.num (omul (odiv (osub (rowGetNum r "종가") (dfGetNum prev t "종가"))
      (dfGetNum prev t "종가")) (some 100))
  let snap := dfSetCol snap "거래량증가" fun t r =>
    Val.bool (oGT (osub (rowGetNum r "거래량") (replace0 (dfGetNum prev t "거래량"))) (some 0))
  dfSetCol snap "상승여부" fun _ r =>
    Val.bool (oGT (rowGetNum r "종가") (rowGetNum r "시가"))

/-- The volume-increase pre-filter applied to the derived table (line 459);
a row whose previous volume was 0 carries `거래량증가 = False` (a NaN
comparison) and is dropped here. -/
def closingComputed (snapshot prev_snapshot : DF) : DF :=
  dfFilter (closingDerived snapshot prev_snapshot) fun _ r =>
    decide (rowGet r "거래량증가" = some (Val.bool true))

/-- `trigger_afternoon_closing_strength`: score the volume-increasing rows,
cut to the top `top_n`, keep the rising rows, return the top 3. -/
def trigger_afternoon_closing_strength (nameOf : Ticker → Except Unit String)
    (snapshot prev_snapshot : DF) (top_n : Nat) : Except Unit DF :=
  let candidates := closingComputed snapshot prev_snapshot
  let candidates :=
    if ¬ candidates.isEmpty then
      let candidates := normCols candidates ["마감강도", "거래량증가율", "거래대금"]
      let candidates := dfSetCol candidates "복합점수" fun _ r =>
        Val.num (oadd (oadd (omul (rowGetNum r "마감강도_norm") (some (5/10)))
          (omul (rowGetNum r "거래량증가율_norm") (some (3/10))))
          (omul (rowGetNum r "거래대금_norm") (some (2/10))))
      (dfSortValues candidates "복합점수" false).take top_n
    else candidates
  let result := dfFilter candidates fun _ r =>
    decide (rowGet r "상승여부" = some (Val.bool true))
  if result.isEmpty then Except.ok []
  else enhance_dataframe nameOf ((dfSortValues result "복합점수" false).take 3)

/-! Afternoon trigger 3: volume surge on flat movers (lines 490-542). -/

/-- Stages of `trigger_afternoon_volume_surge_flat` up to the 50%-growth
pre-filter. -/
def flatComputed (snapshot prev_snapshot : DF) : DF :=
  let common := commonIndex snapshot prev_snapshot
  let snap := dfLocKeys snapshot common
  let prev := dfLocKeys prev_snapshot common
  let snap := apply_absolute_filters snap 500000000
  let snap := dfSetCol snap "거래량증가율" fun t r =>
    Val.num (omul (osub (odiv (rowGetNum r "거래량")
      (replace0 (dfGetNum prev t "거래량"))) (some 1)) (some 100))
  let snap := dfSetCol snap "장중등락률" fun _ r =>
    Val.num (omul (osub (odiv (rowGetNum r "종가") (rowGetNum r "시가")) (some 1)) (some 100))
  let snap := dfSetCol snap "전일대비등락률" fun t r =>
    Val.num (omul (odiv (osub (rowGetNum r "종가") (dfGetNum prev t "종가"))
      (dfGetNum prev t "종가")) (some 100))
  let snap := dfSetCol snap "횡보여부" fun _ r =>
    Val.bool (oLE (oabs (rowGetNum r "장중등락률")) (some 5))
  dfFilter snap fun _ r => oGE (rowGetNum r "거래량증가율") (some 50)

/-- `trigger_afternoon_volume_surge_flat`: score, cut to top `top_n`, keep
the flat movers, return the top 3. -/
def trigger_afternoon_volume_surge_flat (nameOf : Ticker → Except Unit String)
    (snapshot prev_snapshot : DF) (top_n : Nat) : Except Unit DF :=
  let snap := flatComputed snapshot prev_snapshot
  if snap.isEmpty then Except.ok []
  else
    let scored := normalize_and_score snap "거래량증가율" "거래대금" (6/10) (4/10) false
    let candidates := scored.take top_n
    let result := dfFilter candidates fun _ r =>
      decide (rowGet r "횡보여부" = some (Val.bool true))
    if result.isEmpty then Except.ok []
    else enhance_dataframe nameOf ((dfSortValues result "복합점수" false).take 3)

/-! Named pipeline stages.  Each is definitionally the corresponding local
of the trigger body above (`candidates` after the top-N cut by composite
score, `result` after the boolean qualifier), so the claims about stage
order can quantify over them. -/

/-- `candidates` of the volume-surge trigger (line 197): top `top_n` rows
by composite score. -/
def surgeCandidates (snapshot prev_snapshot : DF) (top_n : Nat) : DF :=
  (normalize_and_score (surgeComputed snapshot prev_snapshot) "거래량증가율" "거래량"
    (6/10) (4/10) false).take top_n

/-- `result` of the volume-surge trigger (line 200): the rising subset of
the top-N candidates. -/
def surgeQualified (snapshot prev_snapshot : DF) (top_n : Nat) : DF :=
  dfFilter (surgeCandidates snapshot prev_snapshot top_n) fun _ r =>
    decide (rowGet r "상승여부" = some (Val.bool true))

/-- `candidates` of the gap-up trigger (lines 234-252). -/
def gapCandidates (snapshot prev_snapshot : DF) (top_n : Nat) : DF :=
  let snap := gapComputed snapshot prev_snapshot
  if ¬ snap.isEmpty then
    let snap := normCols snap ["갭상승률", "장중등락률", "거래대금"]
    let snap := dfSetCol snap "복합점수" fun _ r =>
      Val.num (oadd (oadd (omul (rowGetNum r "갭상승률_norm") (some (5/10)))
        (omul (rowGetNum r "장중등락률_norm") (some (3/10))))
        (omul (rowGetNum r "거래대금_norm") (some (2/10))))
    (dfSortValues snap "복합점수" false).take top_n
  else snap

/-- `result` of the gap-up trigger (line 255): the still-rising subset. -/
def gapQualified (snapshot prev_snapshot : DF) (top_n : Nat) : DF :=
  dfFilter (gapCandidates snapshot prev_snapshot top_n) fun _ r =>
    decide (rowGet r "상승지속" = some (Val.bool true))

/-- `candidates` of the closing-strength trigger (lines 462-478). -/
def closingCandidates (snapshot prev_snapshot : DF) (top_n : Nat) : DF :=
  let candidates := closingComputed snapshot prev_snapshot
  if ¬ candidates.isEmpty then
    let candidates := normCols candidates ["마감강도", "거래량증가율", "거래대금"]
    let candidates := dfSetCol candidates "복합점수" fun _ r =>
      Val.num (oadd (oadd (omul (rowGetNum r "마감강도_norm") (some (5/10)))
        (omul (rowGetNum r "거래량증가율_norm") (some (3/10))))
        (omul (rowGetNum r "거래대금_norm") (some (2/10))))
    (dfSortValues candidates "복합점수" false).take top_n
  else candidates

/-- `result` of the closing-strength trigger (line 481). -/
def closingQualified (snapshot prev_snapshot : DF) (top_n : Nat) : DF :=
  dfFilter (closingCandidates snapshot prev_snapshot top_n) fun _ r =>
    decide (rowGet r "상승여부" = some (Val.bool true))

/-- `candidates` of the flat-mover trigger (line 526). -/
def flatCandidates (snapshot prev_snapshot : DF) (top_n : Nat) : DF :=
  (normalize_and_score (flatComputed snapshot prev_snapshot) "거래량증가율" "거래대금"
    (6/10) (4/10) false).take top_n

/-- `result` of the flat-mover trigger (line 529). -/
def flatQualified (snapshot prev_snapshot : DF) (top_n : Nat) : DF :=
  dfFilter (flatCandidates snapshot prev_snapshot top_n) fun _ r =>
    decide (rowGet r "횡보여부" = some (Val.bool true))

/-- Composite-score column of a frame, row by row. -/
def scoresOf (df : DF) : List (Option ℚ) :=
  df.map fun p => rowGetNum p.2 "복합점수"

/-! Final cross-category selection (`select_final_tickers`, lines 545-603).
The triggers argument is an insertion-ordered dict: category name to result
frame. -/

/-- The per-ticker composite score read by the pool builder:
`df.loc[ticker, "복합점수"] if "복합점수" in df.columns else 0`.  Trigger
result frames always store a finite score; a missing or undefined cell is
read as 0 (a NaN score would make the Python sort order unspecified). -/
def scoreOf (df : DF) (t : Ticker) : ℚ :=
  if dfColMem df "복합점수" then
    match dfGetCell df t "복합점수" with
    | some (Val.num (some q)) => q
    | _ => 0
  else 0

/-- Pool-building step for one trigger: walk its index and record each
ticker not yet seen anywhere, together with this trigger's name and score.
State: (`all_tickers`, `all_tickers_with_scores`). -/
def buildPoolStep (acc : List Ticker × List (String × Ticker × ℚ))
    (nt : String × DF) : List Ticker × List (String × Ticker × ℚ) :=
  if ¬ nt.2.isEmpty then
    (dfIndex nt.2).foldl
      (fun acc t =>
        if acc.1.contains t then acc
        else (acc.1 ++ [t], acc.2 ++ [(nt.1, t, scoreOf nt.2 t)]))
      acc
  else acc

/-- Lines 555-565: the flat pool `all_tickers_with_scores`, one entry per
ticker first seen, tagged with the trigger that first contributed it. -/
def buildPool (triggers : List (String × DF)) : List (String × Ticker × ℚ) :=
  (triggers.foldl buildPoolStep ([], [])).2

/-- Line 568: stable descending sort of the pool by composite score. -/
def sortPool (pool : List (String × Ticker × ℚ)) : List (String × Ticker × ℚ) :=
  sortBy (fun a b => decide (b.2.2 < a.2.2)) pool

/-- Dict lookup `triggers[name]`; the callers only look up names that are
present, so the default branch is unreachable on well-formed calls. -/
def lookupDF (m : List (String × DF)) (name : String) : DF :=
  ((m.find? fun p => p.1 == name).map (·.2)).getD []

/-- Dict assignment `m[k] = v`: overwrite in place (dict keys are unique)
or append. -/
def dictSet : List (String × DF) → String → DF → List (String × DF)
  | [], k, v => [(k, v)]
  | p :: ps, k, v => if p.1 = k then (k, v) :: ps else p :: dictSet ps k v

/-- Lines 570-573: the free pick is the head of the sorted pool. -/
def freeOf (triggers : List (String × DF))
    (sorted : List (String × Ticker × ℚ)) : List (String × DF) :=
  match sorted with
  | [] => []
  | (best_trigger, best_ticker, _) :: _ =>
    [(best_trigger, dfLocOne (lookupDF triggers best_trigger) best_ticker)]

/-- Lines 578-585: first premium pass, one top ticker per trigger in
declaration order while fewer than 3 tickers are chosen.  State:
(`premium_result`, `premium_tickers`). -/
def premiumPass1 (triggers : List (String × DF)) :
    List (String × DF) × List Ticker :=
  triggers.foldl
    (fun acc nt =>
      if ¬ nt.2.isEmpty ∧ acc.2.length < 3 then
        match dfIndex nt.2 with
        | [] => acc
        | top_ticker :: _ =>
          if acc.2.contains top_ticker then acc
          else (dictSet acc.1 nt.1 (dfLocOne nt.2 top_ticker), acc.2 ++ [top_ticker])
      else acc)
    ([], [])

/-- Lines 588-601: second premium pass, walking the sorted pool and adding
unchosen tickers until 3 are chosen. -/
def premiumPass2 (triggers : List (String × DF))
    (sorted : List (String × Ticker × ℚ))
    (st : List (String × DF) × List Ticker) :
    List (String × DF) × List Ticker :=
  if st.2.length < 3 then
    sorted.foldl
      (fun acc e =>
        if ¬ acc.2.contains e.2.1 ∧ acc.2.length < 3 then
          let addition := dfLocOne (lookupDF triggers e.1) e.2.1
          let pr :=
            if (acc.1.find? fun p => p.1 == e.1).isSome then
              dictSet acc.1 e.1 (lookupDF acc.1 e.1 ++ addition)
            else dictSet acc.1 e.1 addition
          (pr, acc.2 ++ [e.2.1])
        else acc)
      st
  else st

/-- The `{free, premium}` allocation. -/
structure Alloc where
  free : List (String × DF)
  premium : List (String × DF)
deriving DecidableEq

/-- `select_final_tickers` (lines 545-603). -/
def select_final_tickers (triggers : List (String × DF)) : Alloc :=
  let sorted := sortPool (buildPool triggers)
  let free_result := freeOf triggers sorted
  let st := premiumPass2 triggers sorted (premiumPass1 triggers)
  { free := free_result, premium := st.1 }

/-- The premium tiers computed on their own, from the same source lines,
with no reference to the free selection. -/
def premiumOf (triggers : List (String × DF)) : List (String × DF) :=
  (premiumPass2 triggers (sortPool (buildPool triggers)) (premiumPass1 triggers)).1

/-- All tickers occurring in one tier, across its categories, with
multiplicity. -/
def tierTickers (m : List (String × DF)) : List Ticker :=
  (m.map fun p => dfIndex p.2).flatten

/-- The tickers of the pool entries. -/
def poolTickers (pool : List (String × Ticker × ℚ)) : List Ticker :=
  pool.map fun e => e.2.1

/-! Report document construction (`run_batch`, lines 669-718). -/

/-- One serialized stock record (lines 687-705): the six base fields with
presence-guarded defaults, then the category-specific `if`/`elif` chain. -/
def stock_info (trigger_type : String) (stocks_df : DF) (t : Ticker) : Row :=
  let base : Row := [
    ("code", Val.str t),
    ("name", if dfColMem stocks_df "종목명" then
      (dfGetCell stocks_df t "종목명").getD (Val.str "") else Val.str ""),
    ("current_price", if dfColMem stocks_df "종가" then
      Val.num (dfGetNum stocks_df t "종가") else Val.num (some 0)),
    ("change_rate", if dfColMem stocks_df "전일대비등락률" then
      Val.num (dfGetNum stocks_df t "전일대비등락률") else Val.num (some 0)),
    ("volume", if dfColMem stocks_df "거래량" then
      Val.num (dfGetNum stocks_df t "거래량") else Val.num (some 0)),
    ("trade_value", if dfColMem stocks_df "거래대금" then
      Val.num (dfGetNum stocks_df t "거래대금") else Val.num (some 0))]
  let extra : Row :=
    if dfColMem stocks_df "거래량증가율" ∧ trigger_type = "거래량 급증 상위주" then
      [("volume_increase", Val.num (dfGetNum stocks_df t "거래량증가율"))]
    else if dfColMem stocks_df "갭상승률" then
      [("gap_rate", Val.num (dfGetNum stocks_df t "갭상승률"))]
    else if dfColMem stocks_df "거래대금비율" then
      [("trade_value_ratio", Val.num (dfGetNum stocks_df t "거래대금비율")),
       ("market_cap", Val.num (dfGetNum stocks_df t "시가총액"))]
    else if dfColMem stocks_df "마감강도" then
      [("closing_strength", Val.num (dfGetNum stocks_df t "마감강도"))]
    else []
  base ++ extra

/-- One tier of the output document: category name to its serialized
records, skipping empty frames. -/
def tierOutput (m : List (String × DF)) : List (String × List Row) :=
  m.filterMap fun p =>
    if p.2.isEmpty then none
    else some (p.1, p.2.map fun q => stock_info p.1 p.2 q.1)

/-- The report document (metadata, which only carries the wall clock, the
mode and the date, is left out of the model). -/
structure OutputDoc where
  free : List (String × List Row)
  premium : List (String × List Row)
deriving DecidableEq

/-- Lines 674-708: the serialized `{free, premium}` document. -/
def buildOutputDoc (final_results : Alloc) : OutputDoc :=
  { free := tierOutput final_results.free
    premium := tierOutput final_results.premium }

/-! Batch driver (`run_batch`, lines 606-722).  The market-data provider and
the calendar are external collaborators, modelled as an abstract record of
total functions; a date with no data is a date whose frame is empty. -/

/-- The external data provider and calendar. -/
structure MarketAPI where
  ohlcvByTicker : String → DF
  capByTicker : String → DF
  nearestBizDay : String → String
  prevCalendarDay : String → String
  tickerName : Ticker → Except Unit String

/-- `get_snapshot` (lines 20-35): raises when no rows exist for the date. -/
def get_snapshot (api : MarketAPI) (trade_date : String) : Except Unit DF :=
  let df := api.ohlcvByTicker trade_date
  if df.isEmpty then Except.error () else Except.ok df

/-- `get_previous_snapshot` (lines 37-64): step one calendar day back,
resolve to the nearest business day, fetch; raises when empty. -/
def get_previous_snapshot (api : MarketAPI) (trade_date : String) :
    Except Unit (DF × String) :=
  let prev_date := api.nearestBizDay (api.prevCalendarDay trade_date)
  let df := api.ohlcvByTicker prev_date
  if df.isEmpty then Except.error () else Except.ok (df, prev_date)

/-- `get_market_cap_df` (lines 66-76): raises when empty. -/
def get_market_cap_df (api : MarketAPI) (trade_date : String) : Except Unit DF :=
  let df := api.capByTicker trade_date
  if df.isEmpty then Except.error () else Except.ok df

/-- The rest of `run_batch` once a snapshot and its trade date are fixed
(lines 629-722): previous snapshot, market caps, the mode's three triggers,
final selection and report document.  Returns `ok none` for an invalid mode
(the Python function falls through and returns `None`). -/
def runBatchFrom (api : MarketAPI) (snapshot : DF) (trade_date : String)
    (trigger_time : String) : Except Unit (Option (Alloc × OutputDoc)) := do
  let prevPair ← get_previous_snapshot api trade_date
  let prev_snapshot := prevPair.1
  let cap_df ← get_market_cap_df api trade_date
  let triggersOpt ←
    if trigger_time = "morning" then do
      let res1 ← trigger_morning_volume_surge api.tickerName snapshot prev_snapshot 10
      let res2 ← trigger_morning_gap_up_momentum api.tickerName snapshot prev_snapshot 15
      let res3 := trigger_morning_value_to_cap_ratio api.tickerName snapshot prev_snapshot cap_df 10
      Except.ok (some [("거래량 급증 상위주", res1), ("갭 상승 모멘텀 상위주", res2),
        ("시총 대비 집중 자금 유입 상위주", res3)])
    else if trigger_time = "afternoon" then do
      let res1 ← trigger_afternoon_daily_rise_top api.tickerName snapshot prev_snapshot 15
      let res2 ← trigger_afternoon_closing_strength api.tickerName snapshot prev_snapshot 15
      let res3 ← trigger_afternoon_volume_surge_flat api.tickerName snapshot prev_snapshot 20
      Except.ok (some [("일중 상승률 상위주", res1), ("마감 강도 상위주", res2),
        ("거래량 증가 상위 횡보주", res3)])
    else Except.ok none
  match triggersOpt with
  | none => Except.ok none
  | some triggers =>
    let final_results := select_final_tickers triggers
    Except.ok (some (final_results, buildOutputDoc final_results))

/-- `run_batch` (lines 606-722): resolve the trade date from today, fetch
the snapshot, retrying exactly once on failure after stepping the trade date
through the business-day resolver; then run the rest of the batch.  An
allocation and its report document are produced together on success; every
failure path raises before any of them is built. -/
def run_batch (api : MarketAPI) (today : String) (trigger_time : String) :
    Except Unit (Option (Alloc × OutputDoc)) := do
  let trade_date := api.nearestBizDay today
  let pair ←
    match get_snapshot api trade_date with
    | Except.ok s => Except.ok (s, trade_date)
    | Except.error _ =>
      let trade_date := api.nearestBizDay trade_date
      (get_snapshot api trade_date).map fun s => (s, trade_date)
  runBatchFrom api pair.1 pair.2 trigger_time

/-! Object-level (heap) model of the trigger pipelines.  Python frames are
mutable objects; the pure functions above model values, and this section
models the object graph so the no-mutation contract on the caller's
snapshot frames is a real statement.  `heapAlloc` is any pandas call
returning a fresh frame (`.copy()`, boolean indexing, `merge`,
`sort_values`, `head`); `heapWrite` is an in-place column (or masked)
assignment on an existing object. -/

/-- The store of live DataFrame objects; a reference is an index. -/
structure Heap where
  objs : List DF
deriving DecidableEq

/-- Dereference (out-of-range reads never happen in the programs below). -/
def heapGet (h : Heap) (r : Nat) : DF := (h.objs.getD r [])

/-- Allocate a fresh frame, returning its reference. -/
def heapAlloc (h : Heap) (df : DF) : Nat × Heap := (h.objs.length, ⟨h.objs ++ [df]⟩)

/-- Overwrite the object at `r` in place. -/
def heapWrite (h : Heap) (r : Nat) (df : DF) : Heap := ⟨h.objs.set r df⟩

/-- Heap form of `enhance_dataframe`: writes the display-name column onto
its argument object and returns the same reference.  The lookup is
modelled on its success path; a failing lookup raises before the column
assignment, so it writes nothing at all. -/
def enhanceHeap (nameOf : Ticker → String) (h : Heap) (r : Nat) : Nat × Heap :=
  if (heapGet h r).isEmpty then (r, h)
  else (r, heapWrite h r (dfSetCol (heapGet h r) "종목명" fun t _ => Val.str (nameOf t)))

/-! Statement combinators for the heap programs.  Each trigger body below is
a chain of these, one per source statement: `allocThen` is an assignment
whose right-hand side is a frame-producing pandas call (`.copy()`, boolean
indexing, `merge`, `sort_values`, `head`), binding the fresh reference;
`writeThen` is an in-place column assignment on an existing object (a
multi-column loop of such assignments is taken as one write); `letThen`
binds a pure computed value; `iteThen` is an early-return branch; `seqThen`
runs a subprogram and binds the reference it returns; `retRef`/`retAlloc`
return an existing/fresh object; `enhanceRet` is the trailing
`enhance_dataframe` call, writing the name column onto its argument. -/

/-- Allocate `mk h` and continue with its reference. -/
def allocThen (mk : Heap → DF) (k : Nat → Heap → Nat × Heap) (h : Heap) : Nat × Heap :=
  let a := heapAlloc h (mk h)
  k a.1 a.2

/-- Overwrite object `w` in place with `mk h` and continue. -/
def writeThen (w : Nat) (mk : Heap → DF) (k : Heap → Nat × Heap) (h : Heap) : Nat × Heap :=
  k (heapWrite h w (mk h))

/-- Bind a pure value computed from the current heap. -/
def letThen {α : Type} (f : Heap → α) (k : α → Heap → Nat × Heap) (h : Heap) : Nat × Heap :=
  k (f h) h

/-- Branch on the current heap. -/
def iteThen (c : Heap → Bool) (t e : Heap → Nat × Heap) (h : Heap) : Nat × Heap :=
  if c h then t h else e h

/-- Run a subprogram, then continue with the reference it returned. -/
def seqThen (p : Heap → Nat × Heap) (k : Nat → Heap → Nat × Heap) (h : Heap) : Nat × Heap :=
  let a := p h
  k a.1 a.2

/-- Return an existing reference. -/
def retRef (i : Nat) (h : Heap) : Nat × Heap := (i, h)

/-- Return a freshly allocated frame (`return pd.DataFrame()` and the
final temporaries). -/
def retAlloc (mk : Heap → DF) (h : Heap) : Nat × Heap := heapAlloc h (mk h)

/-- Trailing `return enhance_dataframe(obj)`. -/
def enhanceRet (nameOf : Ticker → String) (i : Nat) (h : Heap) : Nat × Heap :=
  enhanceHeap nameOf h i

/-- Heap form of `trigger_morning_volume_surge` over the caller's snapshot
objects `rSnapshot` and `rPrev`: the two `.loc[common].copy()` calls
allocate the working frames and every later column assignment mutates only
locally allocated objects. -/
def surgeHeap (nameOf : Ticker → String) (h : Heap) (rSnapshot rPrev : Nat)
    (top_n : Nat) : Nat × Heap :=
  let snapshotV := heapGet h rSnapshot
  let prevV := heapGet h rPrev
  let common := commonIndex snapshotV prevV
  (allocThen (fun _ => dfLocKeys snapshotV common) fun snap =>
   allocThen (fun _ => dfLocKeys prevV common) fun prev =>
   allocThen (fun g => apply_absolute_filters (heapGet g snap) 500000000) fun snap =>
   writeThen snap (fun g => dfSetCol (heapGet g snap) "거래량비율" fun t r =>
     Val.num (odiv (rowGetNum r "거래량") (replace0 (dfGetNum (heapGet g prev) t "거래량")))) <|
   writeThen snap (fun g => dfSetCol (heapGet g snap) "거래량증가율" fun _ r =>
     Val.num (omul (osub (rowGetNum r "거래량비율") (some 1)) (some 100))) <|
   writeThen snap (fun g => dfSetCol (heapGet g snap) "장중등락률" fun _ r =>
     Val.num (omul (osub (odiv (rowGetNum r "종가") (rowGetNum r "시가")) (some 1)) (some 100))) <|
   writeThen snap (fun g => dfSetCol (heapGet g snap) "전일대비등락률" fun t r =>
     Val.num (omul (odiv (osub (rowGetNum r "종가") (dfGetNum (heapGet g prev) t "종가"))
       (dfGetNum (heapGet g prev) t "종가")) (some 100))) <|
   writeThen snap (fun g => dfSetCol (heapGet g snap) "상승여부" fun _ r =>
     Val.bool (oGT (rowGetNum r "종가") (rowGetNum r "시가"))) <|
   allocThen (fun g => dfFilter (heapGet g snap) fun _ r =>
     oGE (rowGetNum r "거래량증가율") (some 30)) fun snap =>
   iteThen (fun g => (heapGet g snap).isEmpty) (retAlloc fun _ => []) <|
   writeThen snap (fun g => nsAddCols (heapGet g snap) "거래량증가율" "거래량" (6/10) (4/10)) <|
   allocThen (fun g => dfSortValues (heapGet g snap) "복합점수" false) fun scored =>
   allocThen (fun g => (heapGet g scored).take top_n) fun candidates =>
   allocThen (fun g => dfFilter (heapGet g candidates) fun _ r =>
     decide (rowGet r "상승여부" = some (Val.bool true))) fun result =>
   iteThen (fun g => (heapGet g result).isEmpty) (retAlloc fun _ => []) <|
   allocThen (fun g => (dfSortValues (heapGet g result) "복합점수" false).take 3) fun final =>
   enhanceRet nameOf final) h

/-- Heap form of `trigger_morning_gap_up_momentum`. -/
def gapHeap (nameOf : Ticker → String) (h : Heap) (rSnapshot rPrev : Nat)
    (top_n : Nat) : Nat × Heap :=
  let snapshotV := heapGet h rSnapshot
  let prevV := heapGet h rPrev
  let common := commonIndex snapshotV prevV
  (allocThen (fun _ => dfLocKeys snapshotV common) fun snap =>
   allocThen (fun _ => dfLocKeys prevV common) fun prev =>
   allocThen (fun g => apply_absolute_filters (heapGet g snap) 500000000) fun snap =>
   writeThen snap (fun g => dfSetCol (heapGet g snap) "갭상승률" fun t r =>
     Val.num (omul (osub (odiv (rowGetNum r "시가") (dfGetNum (heapGet g prev) t "종가"))
       (some 1)) (some 100))) <|
   writeThen snap (fun g => dfSetCol (heapGet g snap) "장중등락률" fun _ r =>
     Val.num (omul (osub (odiv (rowGetNum r "종가") (rowGetNum r "시가")) (some 1)) (some 100))) <|
   writeThen snap (fun g => dfSetCol (heapGet g snap) "전일대비등락률" fun t r =>
     Val.num (omul (odiv (osub (rowGetNum r "종가") (dfGetNum (heapGet g prev) t "종가"))
       (dfGetNum (heapGet g prev) t "종가")) (some 100))) <|
   writeThen snap (fun g => dfSetCol (heapGet g snap) "상승지속" fun _ r =>
     Val.bool (oGT (rowGetNum r "종가") (rowGetNum r "시가"))) <|
   allocThen (fun g => dfFilter (heapGet g snap) fun _ r =>
     oGE (rowGetNum r "갭상승률") (some 1)) fun snap =>
   seqThen
     (iteThen (fun g => !(heapGet g snap).isEmpty)
       (writeThen snap (fun g => normCols (heapGet g snap) ["갭상승률", "장중등락률", "거래대금"]) <|
        writeThen snap (fun g => dfSetCol (heapGet g snap) "복합점수" fun _ r =>
          Val.num (oadd (oadd (omul (rowGetNum r "갭상승률_norm") (some (5/10)))
            (omul (rowGetNum r "장중등락률_norm") (some (3/10))))
            (omul (rowGetNum r "거래대금_norm") (some (2/10))))) <|
        retAlloc fun g => (dfSortValues (heapGet g snap) "복합점수" false).take top_n)
       (retRef snap)) fun candidates =>
   allocThen (fun g => dfFilter (heapGet g candidates) fun _ r =>
     decide (rowGet r "상승지속" = some (Val.bool true))) fun result =>
   iteThen (fun g => (heapGet g result).isEmpty) (retAlloc fun _ => []) <|
   writeThen result (fun g => dfSetCol (heapGet g result) "종합모멘텀" fun _ r =>
     Val.num (oadd (rowGetNum r "갭상승률") (rowGetNum r "장중등락률"))) <|
   allocThen (fun g => (dfSortValues (heapGet g result) "복합점수" false).take 3) fun final =>
   enhanceRet nameOf final) h

/-- Heap form of `trigger_morning_value_to_cap_ratio` over the snapshot,
previous-snapshot and market-cap objects (the cap frame is only read). -/
def capHeap (nameOf : Ticker → String) (h : Heap) (rSnapshot rPrev rCap : Nat)
    (top_n : Nat) : Nat × Heap :=
  let snapshotV := heapGet h rSnapshot
  let prevV := heapGet h rPrev
  let capV := heapGet h rCap
  (iteThen (fun _ => snapshotV.isEmpty) (retAlloc fun _ => []) <|
   iteThen (fun _ => prevV.isEmpty) (retAlloc fun _ => []) <|
   iteThen (fun _ => capV.isEmpty) (retAlloc fun _ => []) <|
   iteThen (fun _ => !dfColMem capV "시가총액") (retAlloc fun _ => []) <|
   allocThen (fun _ => mergeCapCol snapshotV capV) fun merged =>
   iteThen (fun g => !dfColMem (heapGet g merged) "시가총액") (retAlloc fun _ => []) <|
   letThen (fun g => commonIndex (heapGet g merged) prevV) fun common =>
   iteThen (fun _ => decide (common.length = 0)) (retAlloc fun _ => []) <|
   allocThen (fun g => dfLocKeys (heapGet g merged) common) fun merged =>
   allocThen (fun _ => dfLocKeys prevV common) fun prev =>
   allocThen (fun g => apply_absolute_filters (heapGet g merged) 500000000) fun merged =>
   iteThen (fun g => (heapGet g merged).isEmpty) (retAlloc fun _ => []) <|
   iteThen (fun g => !(["거래대금", "시가총액", "종가", "시가"].all fun c =>
     dfColMem (heapGet g merged) c)) (retAlloc fun _ => []) <|
   writeThen merged (fun g => dfSetCol (heapGet g merged) "거래대금비율" fun _ r =>
     Val.num (omul (odiv (rowGetNum r "거래대금") (rowGetNum r "시가총액")) (some 100))) <|
   writeThen merged (fun g => dfSetCol (heapGet g merged) "장중등락률" fun _ r =>
     Val.num (omul (osub (odiv (rowGetNum r "종가") (rowGetNum r "시가")) (some 1)) (some 100))) <|
   writeThen merged (fun g => dfSetCol (heapGet g merged) "전일대비등락률" fun t r =>
     Val.num (omul (odiv (osub (rowGetNum r "종가") (dfGetNum (heapGet g prev) t "종가"))
       (dfGetNum (heapGet g prev) t "종가")) (some 100))) <|
   writeThen merged (fun g => dfSetCol (heapGet g merged) "상승여부" fun _ r =>
     Val.bool (oGT (rowGetNum r "종가") (rowGetNum r "시가"))) <|
   allocThen (fun g => dfFilter (heapGet g merged) fun _ r =>
     oGE (rowGetNum r "시가총액") (some 10000000000)) fun merged =>
   iteThen (fun g => (heapGet g merged).isEmpty) (retAlloc fun _ => []) <|
   writeThen merged (fun g => normCols (heapGet g merged)
     ["거래대금비율", "거래대금", "장중등락률"]) <|
   writeThen merged (fun g => dfSetCol (heapGet g merged) "복합점수" fun _ r =>
     Val.num (oadd (oadd (omul (rowGetNum r "거래대금비율_norm") (some (5/10)))
       (omul (rowGetNum r "거래대금_norm") (some (3/10))))
       (omul (rowGetNum r "장중등락률_norm") (some (2/10))))) <|
   allocThen (fun g => (dfSortValues (heapGet g merged) "복합점수" false).take top_n) fun candidates =>
   allocThen (fun g => dfFilter (heapGet g candidates) fun _ r =>
     decide (rowGet r "상승여부" = some (Val.bool true))) fun result =>
   iteThen (fun g => (heapGet g result).isEmpty) (retAlloc fun _ => []) <|
   allocThen (fun g => (dfSortValues (heapGet g result) "복합점수" false).take 3) fun final =>
   enhanceRet nameOf final) h

/-- Heap form of `trigger_afternoon_daily_rise_top` (note its extra
`snap.copy()` before the absolute filters, line 406). -/
def dailyHeap (nameOf : Ticker → String) (h : Heap) (rSnapshot rPrev : Nat)
    (top_n : Nat) : Nat × Heap :=
  let snapshotV := heapGet h rSnapshot
  let prevV := heapGet h rPrev
  let common := commonIndex snapshotV prevV
  (allocThen (fun _ => dfLocKeys snapshotV common) fun snap =>
   allocThen (fun _ => dfLocKeys prevV common) fun prev =>
   allocThen (fun g => heapGet g snap) fun snapCopy =>
   allocThen (fun g => apply_absolute_filters (heapGet g snapCopy) 1000000000) fun snap =>
   writeThen snap (fun g => dfSetCol (heapGet g snap) "장중등락률" fun _ r =>
     Val.num (omul (osub (odiv (rowGetNum r "종가") (rowGetNum r "시가")) (some 1)) (some 100))) <|
   writeThen snap (fun g => dfSetCol (heapGet g snap) "전일대비등락률" fun t r =>
     Val.num (omul (odiv (osub (rowGetNum r "종가") (dfGetNum (heapGet g prev) t "종가"))
       (dfGetNum (heapGet g prev) t "종가")) (some 100))) <|
   allocThen (fun g => dfFilter (heapGet g snap) fun _ r =>
     oGE (rowGetNum r "장중등락률") (some 3)) fun snap =>
   iteThen (fun g => (heapGet g snap).isEmpty) (retAlloc fun _ => []) <|
   writeThen snap (fun g => nsAddCols (heapGet g snap) "장중등락률" "거래대금" (6/10) (4/10)) <|
   allocThen (fun g => dfSortValues (heapGet g snap) "복합점수" false) fun scored =>
   allocThen (fun g => (heapGet g scored).take top_n) fun result =>
   allocThen (fun g => (heapGet g result).take 3) fun final =>
   enhanceRet nameOf final) h

/-- Heap form of `trigger_afternoon_closing_strength` (its masked
`snap.loc[valid_range, "마감강도"] = ...` assignment is an in-place write,
lines 444-446). -/
def closingHeap (nameOf : Ticker → String) (h : Heap) (rSnapshot rPrev : Nat)
    (top_n : Nat) : Nat × Heap :=
  let snapshotV := heapGet h rSnapshot
  let prevV := heapGet h rPrev
  let common := commonIndex snapshotV prevV
  (allocThen (fun _ => dfLocKeys snapshotV common) fun snap =>
   allocThen (fun _ => dfLocKeys prevV common) fun prev =>
   allocThen (fun g => apply_absolute_filters (heapGet g snap) 500000000) fun snap =>
   writeThen snap (fun g => dfSetCol (heapGet g snap) "마감강도" fun _ _ =>
     Val.num (some 0)) <|
   writeThen snap (fun g => dfMaskedSetCol (heapGet g snap) "마감강도"
     (fun _ r => oNE (rowGetNum r "고가") (rowGetNum r "저가"))
     (fun _ r => Val.num (odiv (osub (rowGetNum r "종가") (rowGetNum r "저가"))
       (osub (rowGetNum r "고가") (rowGetNum r "저가"))))) <|
   writeThen snap (fun g => dfSetCol (heapGet g snap) "거래량증가율" fun t r =>
     Val.num (omul (osub (odiv (rowGetNum r "거래량")
       (replace0 (dfGetNum (heapGet g prev) t "거래량"))) (some 1)) (some 100))) <|
   writeThen snap (fun g => dfSetCol (heapGet g snap) "장중등락률" fun _ r =>
     Val.num (omul (osub (odiv (rowGetNum r "종가") (rowGetNum r "시가")) (some 1)) (some 100))) <|
   writeThen snap (fun g => dfSetCol (heapGet g snap) "전일대비등락률" fun t r =>
     Val.num (omul (odiv (osub (rowGetNum r "종가") (dfGetNum (heapGet g prev) t "종가"))
       (dfGetNum (heapGet g prev) t "종가")) (some 100))) <|
   writeThen snap (fun g => dfSetCol (heapGet g snap) "거래량증가" fun t r =>
     Val.bool (oGT (osub (rowGetNum r "거래량")
       (replace0 (dfGetNum (heapGet g prev) t "거래량"))) (some 0))) <|
   writeThen snap (fun g => dfSetCol (heapGet g snap) "상승여부" fun _ r =>
     Val.bool (oGT (rowGetNum r "종가") (rowGetNum r "시가"))) <|
   allocThen (fun g => dfFilter (heapGet g snap) fun _ r =>
     decide (rowGet r "거래량증가" = some (Val.bool true))) fun candidates =>
   seqThen
     (iteThen (fun g => !(heapGet g candidates).isEmpty)
       (writeThen candidates (fun g => normCols (heapGet g candidates)
          ["마감강도", "거래량증가율", "거래대금"]) <|
        writeThen candidates (fun g => dfSetCol (heapGet g candidates) "복합점수" fun _ r =>
          Val.num (oadd (oadd (omul (rowGetNum r "마감강도_norm") (some (5/10)))
            (omul (rowGetNum r "거래량증가율_norm") (some (3/10))))
            (omul (rowGetNum r "거래대금_norm") (some (2/10))))) <|
        retAlloc fun g => (dfSortValues (heapGet g candidates) "복합점수" false).take top_n)
       (retRef candidates)) fun candidates =>
   allocThen (fun g => dfFilter (heapGet g candidates) fun _ r =>
     decide (rowGet r "상승여부" = some (Val.bool true))) fun result =>
   iteThen (fun g => (heapGet g result).isEmpty) (retAlloc fun _ => []) <|
   allocThen (fun g => (dfSortValues (heapGet g result) "복합점수" false).take 3) fun final =>
   enhanceRet nameOf final) h

/-- Heap form of `trigger_afternoon_volume_surge_flat`. -/
def flatHeap (nameOf : Ticker → String) (h : Heap) (rSnapshot rPrev : Nat)
    (top_n : Nat) : Nat × Heap :=
  let snapshotV := heapGet h rSnapshot
  let prevV := heapGet h rPrev
  let common := commonIndex snapshotV prevV
  (allocThen (fun _ => dfLocKeys snapshotV common) fun snap =>
   allocThen (fun _ => dfLocKeys prevV common) fun prev =>
   allocThen (fun g => apply_absolute_filters (heapGet g snap) 500000000) fun snap =>
   writeThen snap (fun g => dfSetCol (heapGet g snap) "거래량증가율" fun t r =>
     Val.num (omul (osub (odiv (rowGetNum r "거래량")
       (replace0 (dfGetNum (heapGet g prev) t "거래량"))) (some 1)) (some 100))) <|
   writeThen snap (fun g => dfSetCol (heapGet g snap) "장중등락률" fun _ r =>
     Val.num (omul (osub (odiv (rowGetNum r "종가") (rowGetNum r "시가")) (some 1)) (some 100))) <|
   writeThen snap (fun g => dfSetCol (heapGet g snap) "전일대비등락률" fun t r =>
     Val.num (omul (odiv (osub (rowGetNum r "종가") (dfGetNum (heapGet g prev) t "종가"))
       (dfGetNum (heapGet g prev) t "종가")) (some 100))) <|
   writeThen snap (fun g => dfSetCol (heapGet g snap) "횡보여부" fun _ r =>
     Val.bool (oLE (oabs (rowGetNum r "장중등락률")) (some 5))) <|
   allocThen (fun g => dfFilter (heapGet g snap) fun _ r =>
     oGE (rowGetNum r "거래량증가율") (some 50)) fun snap =>
   iteThen (fun g => (heapGet g snap).isEmpty) (retAlloc fun _ => []) <|
   writeThen snap (fun g => nsAddCols (heapGet g snap) "거래량증가율" "거래대금" (6/10) (4/10)) <|
   allocThen (fun g => dfSortValues (heapGet g snap) "복합점수" false) fun scored =>
   allocThen (fun g => (heapGet g scored).take top_n) fun candidates =>
   allocThen (fun g => dfFilter (heapGet g candidates) fun _ r =>
     decide (rowGet r "횡보여부" = some (Val.bool true))) fun result =>
   iteThen (fun g => (heapGet g result).isEmpty) (retAlloc fun _ => []) <|
   allocThen (fun g => (dfSortValues (heapGet g result) "복합점수" false).take 3) fun final =>
   enhanceRet nameOf final) h

/-! Concrete inputs used by witnesses and counterexamples. -/

/-- A name lookup that always succeeds with the raw ticker. -/
def exNameOk : Ticker → Except Unit String := fun t => Except.ok t

/-- One raw snapshot row. -/
def mkSnapRow (o hi lo c vol tv : ℚ) : Row :=
  [("시가", Val.num (some o)), ("고가", Val.num (some hi)), ("저가", Val.num (some lo)),
   ("종가", Val.num (some c)), ("거래량", Val.num (some vol)), ("거래대금", Val.num (some tv))]

/-- Today's snapshot for the under-3 scenario: three tickers pass the
volume-surge pre-filter; ranked by composite score A > B > C, with B not
rising, so the top-2 cut followed by the qualifier returns only A even
though C also satisfies pre-filter and qualifier. -/
def exSnapC3 : DF :=
  [("A", mkSnapRow 100 120 90 110 1000 500000000),
   ("B", mkSnapRow 100 120 90 100 900 500000000),
   ("C", mkSnapRow 100 120 90 110 140 500000000)]

/-- The previous-day snapshot for the same scenario. -/
def exPrevC3 : DF :=
  [("A", mkSnapRow 100 120 90 100 100 500000000),
   ("B", mkSnapRow 100 120 90 100 100 500000000),
   ("C", mkSnapRow 100 120 90 100 100 500000000)]

/-- The volume-surge output on that scenario (with `top_n = 2`). -/
def exOutC3 : DF :=
  ((trigger_morning_volume_surge exNameOk exSnapC3 exPrevC3 2).toOption).getD []

/-! Frame lemmas.  A heap program that allocates fresh objects and writes
only to references at or above a base `n₀` leaves every object below `n₀`
untouched; the combinator lemmas below compose this through the trigger
bodies. -/

/-- The first `n₀` objects of `h'` agree with those of `h₀`, and `h'` holds
at least `n₀` objects. -/
def LowAgree (n₀ : Nat) (h₀ h' : Heap) : Prop :=
  n₀ ≤ h'.objs.length ∧ ∀ r, r < n₀ → heapGet h' r = heapGet h₀ r

theorem lowAgree_refl {n₀ : Nat} {h : Heap} (hn : n₀ ≤ h.objs.length) :
    LowAgree n₀ h h := ⟨hn, fun _ _ => rfl⟩

theorem lowAgree_alloc {n₀ : Nat} {h₀ h : Heap} (hh : LowAgree n₀ h₀ h) (df : DF) :
    LowAgree n₀ h₀ (heapAlloc h df).2 := by
  obtain ⟨hn, hg⟩ := hh
  refine ⟨by simp [heapAlloc]; omega, fun r hr => ?_⟩
  rw [← hg r hr]
  show ((h.objs ++ [df]).getD r []) = (h.objs.getD r [])
  have hlt : r < h.objs.length := lt_of_lt_of_le hr hn
  simp [List.getD, List.getElem?_append, hlt]

theorem lowAgree_write {n₀ : Nat} {h₀ h : Heap} (hh : LowAgree n₀ h₀ h)
    {w : Nat} (hw : n₀ ≤ w) (df : DF) :
    LowAgree n₀ h₀ (heapWrite h w df) := by
  obtain ⟨hn, hg⟩ := hh
  refine ⟨by simpa [heapWrite] using hn, fun r hr => ?_⟩
  rw [← hg r hr]
  show ((h.objs.set w df).getD r []) = (h.objs.getD r [])
  have hne : w ≠ r := by omega
  simp [List.getD, List.getElem?_set_ne hne]

theorem lowAgree_allocThen {n₀ : Nat} {h₀ h : Heap} {mk : Heap → DF}
    {k : Nat → Heap → Nat × Heap} (hh : LowAgree n₀ h₀ h)
    (hk : ∀ i g, n₀ ≤ i → LowAgree n₀ h₀ g → LowAgree n₀ h₀ (k i g).2) :
    LowAgree n₀ h₀ ((allocThen mk k h).2) :=
  hk _ _ hh.1 (lowAgree_alloc hh _)

theorem lowAgree_writeThen {n₀ : Nat} {h₀ h : Heap} {w : Nat} {mk : Heap → DF}
    {k : Heap → Nat × Heap} (hw : n₀ ≤ w) (hh : LowAgree n₀ h₀ h)
    (hk : ∀ g, LowAgree n₀ h₀ g → LowAgree n₀ h₀ (k g).2) :
    LowAgree n₀ h₀ ((writeThen w mk k h).2) :=
  hk _ (lowAgree_write hh hw _)

theorem lowAgree_letThen {α : Type} {n₀ : Nat} {h₀ h : Heap} {f : Heap → α}
    {k : α → Heap → Nat × Heap} (hk : LowAgree n₀ h₀ ((k (f h) h).2)) :
    LowAgree n₀ h₀ ((letThen f k h).2) := hk

theorem lowAgree_iteThen {n₀ : Nat} {h₀ h : Heap} {c : Heap → Bool}
    {t e : Heap → Nat × Heap} (ht : LowAgree n₀ h₀ ((t h).2))
    (he : LowAgree n₀ h₀ ((e h).2)) : LowAgree n₀ h₀ ((iteThen c t e h).2) := by
  unfold iteThen
  split
  · exact ht
  · exact he

theorem lowAgree_seqThen {n₀ : Nat} {h₀ h : Heap} {p : Heap → Nat × Heap}
    {k : Nat → Heap → Nat × Heap} (hp : LowAgree n₀ h₀ ((p h).2))
    (hk : ∀ i g, LowAgree n₀ h₀ g → LowAgree n₀ h₀ (k i g).2) :
    LowAgree n₀ h₀ ((seqThen p k h).2) := hk _ _ hp

theorem lowAgree_retRef {n₀ : Nat} {h₀ h : Heap} {i : Nat}
    (hh : LowAgree n₀ h₀ h) : LowAgree n₀ h₀ ((retRef i h).2) := hh

theorem lowAgree_retAlloc {n₀ : Nat} {h₀ h : Heap} {mk : Heap → DF}
    (hh : LowAgree n₀ h₀ h) : LowAgree n₀ h₀ ((retAlloc mk h).2) :=
  lowAgree_alloc hh _

theorem lowAgree_enhanceRet {n₀ : Nat} {h₀ h : Heap} {nameOf : Ticker → String}
    {i : Nat} (hi : n₀ ≤ i) (hh : LowAgree n₀ h₀ h) :
    LowAgree n₀ h₀ ((enhanceRet nameOf i h).2) := by
  unfold enhanceRet enhanceHeap
  split
  · exact hh
  · exact lowAgree_write hh hi _

/-- `trigger_morning_volume_surge` leaves every pre-existing object intact. -/
theorem surgeHeap_lowAgree (nameOf : Ticker → String) (h : Heap) (rS rP tn : Nat) :
    LowAgree h.objs.length h (surgeHeap nameOf h rS rP tn).2 := by
  simp only [surgeHeap]
  refine lowAgree_allocThen (lowAgree_refl le_rfl) ?_
  intro snap g hsnap hg
  refine lowAgree_allocThen hg ?_
  intro prev g hprev hg
  refine lowAgree_allocThen hg ?_
  intro snap g hsnap2 hg
  refine lowAgree_writeThen hsnap2 hg ?_
  intro g hg
  refine lowAgree_writeThen hsnap2 hg ?_
  intro g hg
  refine lowAgree_writeThen hsnap2 hg ?_
  intro g hg
  refine lowAgree_writeThen hsnap2 hg ?_
  intro g hg
  refine lowAgree_writeThen hsnap2 hg ?_
  intro g hg
  refine lowAgree_allocThen hg ?_
  intro snap g hsnap3 hg
  refine lowAgree_iteThen (lowAgree_retAlloc hg) ?_
  refine lowAgree_writeThen hsnap3 hg ?_
  intro g hg
  refine lowAgree_allocThen hg ?_
  intro scored g hscored hg
  refine lowAgree_allocThen hg ?_
  intro candidates g hcand hg
  refine lowAgree_allocThen hg ?_
  intro result g hres hg
  refine lowAgree_iteThen (lowAgree_retAlloc hg) ?_
  refine lowAgree_allocThen hg ?_
  intro final g hfinal hg
  exact lowAgree_enhanceRet hfinal hg

/-- `trigger_morning_gap_up_momentum` leaves every pre-existing object
intact. -/
theorem gapHeap_lowAgree (nameOf : Ticker → String) (h : Heap) (rS rP tn : Nat) :
    LowAgree h.objs.length h (gapHeap nameOf h rS rP tn).2 := by
  simp only [gapHeap]
  refine lowAgree_allocThen (lowAgree_refl le_rfl) ?_
  intro snap g hsnap hg
  refine lowAgree_allocThen hg ?_
  intro prev g hprev hg
  refine lowAgree_allocThen hg ?_
  intro snap g hsnap2 hg
  refine lowAgree_writeThen hsnap2 hg ?_
  intro g hg
  refine lowAgree_writeThen hsnap2 hg ?_
  intro g hg
  refine lowAgree_writeThen hsnap2 hg ?_
  intro g hg
  refine lowAgree_writeThen hsnap2 hg ?_
  intro g hg
  refine lowAgree_allocThen hg ?_
  intro snap g hsnap3 hg
  refine lowAgree_seqThen ?_ ?_
  · refine lowAgree_iteThen ?_ (lowAgree_retRef hg)
    refine lowAgree_writeThen hsnap3 hg ?_
    intro g hg
    refine lowAgree_writeThen hsnap3 hg ?_
    intro g hg
    exact lowAgree_retAlloc hg
  · intro candidates g hg
    refine lowAgree_allocThen hg ?_
    intro result g hres hg
    refine lowAgree_iteThen (lowAgree_retAlloc hg) ?_
    refine lowAgree_writeThen hres hg ?_
    intro g hg
    refine lowAgree_allocThen hg ?_
    intro final g hfinal hg
    exact lowAgree_enhanceRet hfinal hg

/-- `trigger_morning_value_to_cap_ratio` leaves every pre-existing object
intact. -/
theorem capHeap_lowAgree (nameOf : Ticker → String) (h : Heap) (rS rP rC tn : Nat) :
    LowAgree h.objs.length h (capHeap nameOf h rS rP rC tn).2 := by
  simp only [capHeap]
  have hg0 : LowAgree h.objs.length h h := lowAgree_refl le_rfl
  refine lowAgree_iteThen (lowAgree_retAlloc hg0) ?_
  refine lowAgree_iteThen (lowAgree_retAlloc hg0) ?_
  refine lowAgree_iteThen (lowAgree_retAlloc hg0) ?_
  refine lowAgree_iteThen (lowAgree_retAlloc hg0) ?_
  refine lowAgree_allocThen hg0 ?_
  intro merged g hmerged hg
  refine lowAgree_iteThen (lowAgree_retAlloc hg) ?_
  refine lowAgree_letThen ?_
  refine lowAgree_iteThen (lowAgree_retAlloc hg) ?_
  refine lowAgree_allocThen hg ?_
  intro merged g hmerged2 hg
  refine lowAgree_allocThen hg ?_
  intro prev g hprev hg
  refine lowAgree_allocThen hg ?_
  intro merged g hmerged3 hg
  refine lowAgree_iteThen (lowAgree_retAlloc hg) ?_
  refine lowAgree_iteThen (lowAgree_retAlloc hg) ?_
  refine lowAgree_writeThen hmerged3 hg ?_
  intro g hg
  refine lowAgree_writeThen hmerged3 hg ?_
  intro g hg
  refine lowAgree_writeThen hmerged3 hg ?_
  intro g hg
  refine lowAgree_writeThen hmerged3 hg ?_
  intro g hg
  refine lowAgree_allocThen hg ?_
  intro merged g hmerged4 hg
  refine lowAgree_iteThen (lowAgree_retAlloc hg) ?_
  refine lowAgree_writeThen hmerged4 hg ?_
  intro g hg
  refine lowAgree_writeThen hmerged4 hg ?_
  intro g hg
  refine lowAgree_allocThen hg ?_
  intro candidates g hcand hg
  refine lowAgree_allocThen hg ?_
  intro result g hres hg
  refine lowAgree_iteThen (lowAgree_retAlloc hg) ?_
  refine lowAgree_allocThen hg ?_
  intro final g hfinal hg
  exact lowAgree_enhanceRet hfinal hg

/-- `trigger_afternoon_daily_rise_top` leaves every pre-existing object
intact. -/
theorem dailyHeap_lowAgree (nameOf : Ticker → String) (h : Heap) (rS rP tn : Nat) :
    LowAgree h.objs.length h (dailyHeap nameOf h rS rP tn).2 := by
  simp only [dailyHeap]
  refine lowAgree_allocThen (lowAgree_refl le_rfl) ?_
  intro snap g hsnap hg
  refine lowAgree_allocThen hg ?_
  intro prev g hprev hg
  refine lowAgree_allocThen hg ?_
  intro snapCopy g hsc hg
  refine lowAgree_allocThen hg ?_
  intro snap g hsnap2 hg
  refine lowAgree_writeThen hsnap2 hg ?_
  intro g hg
  refine lowAgree_writeThen hsnap2 hg ?_
  intro g hg
  refine lowAgree_allocThen hg ?_
  intro snap g hsnap3 hg
  refine lowAgree_iteThen (lowAgree_retAlloc hg) ?_
  refine lowAgree_writeThen hsnap3 hg ?_
  intro g hg
  refine lowAgree_allocThen hg ?_
  intro scored g hscored hg
  refine lowAgree_allocThen hg ?_
  intro result g hres hg
  refine lowAgree_allocThen hg ?_
  intro final g hfinal hg
  exact lowAgree_enhanceRet hfinal hg

/-- `trigger_afternoon_closing_strength` leaves every pre-existing object
intact. -/
theorem closingHeap_lowAgree (nameOf : Ticker → String) (h : Heap) (rS rP tn : Nat) :
    LowAgree h.objs.length h (closingHeap nameOf h rS rP tn).2 := by
  simp only [closingHeap]
  refine lowAgree_allocThen (lowAgree_refl le_rfl) ?_
  intro snap g hsnap hg
  refine lowAgree_allocThen hg ?_
  intro prev g hprev hg
  refine lowAgree_allocThen hg ?_
  intro snap g hsnap2 hg
  refine lowAgree_writeThen hsnap2 hg ?_
  intro g hg
  refine lowAgree_writeThen hsnap2 hg ?_
  intro g hg
  refine lowAgree_writeThen hsnap2 hg ?_
  intro g hg
  refine lowAgree_writeThen hsnap2 hg ?_
  intro g hg
  refine lowAgree_writeThen hsnap2 hg ?_
  intro g hg
  refine lowAgree_writeThen hsnap2 hg ?_
  intro g hg
  refine lowAgree_writeThen hsnap2 hg ?_
  intro g hg
  refine lowAgree_allocThen hg ?_
  intro candidates g hcand hg
  refine lowAgree_seqThen ?_ ?_
  · refine lowAgree_iteThen ?_ (lowAgree_retRef hg)
    refine lowAgree_writeThen hcand hg ?_
    intro g hg
    refine lowAgree_writeThen hcand hg ?_
    intro g hg
    exact lowAgree_retAlloc hg
  · intro candidates g hg
    refine lowAgree_allocThen hg ?_
    intro result g hres hg
    refine lowAgree_iteThen (lowAgree_retAlloc hg) ?_
    refine lowAgree_allocThen hg ?_
    intro final g hfinal hg
    exact lowAgree_enhanceRet hfinal hg

/-- `trigger_afternoon_volume_surge_flat` leaves every pre-existing object
intact. -/
theorem flatHeap_lowAgree (nameOf : Ticker → String) (h : Heap) (rS rP tn : Nat) :
    LowAgree h.objs.length h (flatHeap nameOf h rS rP tn).2 := by
  simp only [flatHeap]
  refine lowAgree_allocThen (lowAgree_refl le_rfl) ?_
  intro snap g hsnap hg
  refine lowAgree_allocThen hg ?_
  intro prev g hprev hg
  refine lowAgree_allocThen hg ?_
  intro snap g hsnap2 hg
  refine lowAgree_writeThen hsnap2 hg ?_
  intro g hg
  refine lowAgree_writeThen hsnap2 hg ?_
  intro g hg
  refine lowAgree_writeThen hsnap2 hg ?_
  intro g hg
  refine lowAgree_writeThen hsnap2 hg ?_
  intro g hg
  refine lowAgree_allocThen hg ?_
  intro snap g hsnap3 hg
  refine lowAgree_iteThen (lowAgree_retAlloc hg) ?_
  refine lowAgree_writeThen hsnap3 hg ?_
  intro g hg
  refine lowAgree_allocThen hg ?_
  intro scored g hscored hg
  refine lowAgree_allocThen hg ?_
  intro candidates g hcand hg
  refine lowAgree_allocThen hg ?_
  intro result g hres hg
  refine lowAgree_iteThen (lowAgree_retAlloc hg) ?_
  refine lowAgree_allocThen hg ?_
  intro final g hfinal hg
  exact lowAgree_enhanceRet hfinal hg

/-! Basic facts about rows, frames and the stable sort. -/

theorem rowGet_cons (p : String × Val) (ps : Row) (c : String) :
    rowGet (p :: ps) c = if p.1 = c then some p.2 else rowGet ps c := by
  by_cases h : p.1 = c
  · simp [rowGet, List.find?_cons_of_pos, h]
  · simp [rowGet, List.find?_cons_of_neg, h]

theorem rowGet_rowSet_same (r : Row) (c : String) (v : Val) :
    rowGet (rowSet r c v) c = some v := by
  induction r with
  | nil => simp [rowSet, rowGet_cons]
  | cons p ps ih =>
    unfold rowSet
    by_cases h : p.1 = c
    · simp [h, rowGet_cons]
    · simp [h, rowGet_cons, ih]

theorem rowGet_rowSet_ne (r : Row) {c c' : String} (v : Val) (h : c' ≠ c) :
    rowGet (rowSet r c v) c' = rowGet r c' := by
  induction r with
  | nil => simp [rowSet, rowGet_cons, rowGet, Ne.symm h]
  | cons p ps ih =>
    unfold rowSet
    by_cases hp : p.1 = c
    · simp [hp, rowGet_cons, Ne.symm h, hp ▸ (Ne.symm h)]
    · simp [hp, rowGet_cons, ih]

theorem rowGetNum_rowSet_ne (r : Row) {c c' : String} (v : Val) (h : c' ≠ c) :
    rowGetNum (rowSet r c v) c' = rowGetNum r c' := by
  simp [rowGetNum, rowGet_rowSet_ne r v h]

theorem rowGetNum_rowSet_num (r : Row) (c : String) (q : Option ℚ) :
    rowGetNum (rowSet r c (Val.num q)) c = q := by
  simp [rowGetNum, rowGet_rowSet_same]

theorem dfIndex_dfSetCol (df : DF) (c : String) (f : Ticker → Row → Val) :
    dfIndex (dfSetCol df c f) = dfIndex df := by
  simp [dfIndex, dfSetCol, List.map_map, Function.comp]

theorem mem_dfSetCol {df : DF} {c : String} {f : Ticker → Row → Val} {p : Ticker × Row} :
    p ∈ dfSetCol df c f ↔ ∃ q ∈ df, p = (q.1, rowSet q.2 c (f q.1 q.2)) := by
  simp [dfSetCol, List.mem_map, eq_comm]

theorem mem_dfFilter {df : DF} {g : Ticker → Row → Bool} {p : Ticker × Row} :
    p ∈ dfFilter df g ↔ p ∈ df ∧ g p.1 p.2 = true := by
  simp [dfFilter, List.mem_filter]

theorem insertBy_perm {α : Type} (prec : α → α → Bool) (x : α) (l : List α) :
    (insertBy prec x l).Perm (x :: l) := by
  induction l with
  | nil => exact List.Perm.refl _
  | cons y ys ih =>
    unfold insertBy
    split
    · exact (ih.cons y).trans (List.Perm.swap x y ys)
    · exact List.Perm.refl _

theorem sortBy_perm {α : Type} (prec : α → α → Bool) (l : List α) :
    (sortBy prec l).Perm l := by
  induction l with
  | nil => exact List.Perm.refl _
  | cons x xs ih => exact (insertBy_perm prec x (sortBy prec xs)).trans (ih.cons x)

theorem mem_sortBy {α : Type} {prec : α → α → Bool} {l : List α} {a : α} :
    a ∈ sortBy prec l ↔ a ∈ l := (sortBy_perm prec l).mem_iff

theorem insertBy_pairwise {α : Type} {prec : α → α → Bool}
    (hasymm : ∀ a b, prec a b = true → prec b a = false)
    (hntrans : ∀ a b c, prec b a = false → prec c b = false → prec c a = false)
    {l : List α} (hl : l.Pairwise fun a b => prec b a = false) (x : α) :
    (insertBy prec x l).Pairwise fun a b => prec b a = false := by
  induction l with
  | nil => simp [insertBy]
  | cons y ys ih =>
    rcases List.pairwise_cons.mp hl with ⟨hy, hys⟩
    unfold insertBy
    split
    case isTrue hpx =>
      refine List.pairwise_cons.mpr ⟨?_, ih hys⟩
      intro z hz
      rcases List.mem_cons.mp ((insertBy_perm prec x ys).mem_iff.mp hz) with hzx | hzys
      · rw [hzx]
        exact hasymm y x hpx
      · exact hy z hzys
    case isFalse hpx =>
      refine List.pairwise_cons.mpr ⟨?_, hl⟩
      intro z hz
      rcases List.mem_cons.mp hz with hzy | hzys
      · rw [hzy]
        exact Bool.eq_false_iff.mpr hpx
      · exact hntrans x y z (Bool.eq_false_iff.mpr hpx) (hy z hzys)

theorem sortBy_pairwise {α : Type} {prec : α → α → Bool}
    (hasymm : ∀ a b, prec a b = true → prec b a = false)
    (hntrans : ∀ a b c, prec b a = false → prec c b = false → prec c a = false)
    (l : List α) :
    (sortBy prec l).Pairwise fun a b => prec b a = false := by
  induction l with
  | nil => simp [sortBy]
  | cons x xs ih => exact insertBy_pairwise hasymm hntrans ih x

theorem descPrec_asymm (a b : Option ℚ) (h : descPrec a b = true) : descPrec b a = false := by
  cases a <;> cases b <;> simp [descPrec] at h ⊢
  linarith

theorem descPrec_ntrans (a b c : Option ℚ) (h1 : descPrec b a = false)
    (h2 : descPrec c b = false) : descPrec c a = false := by
  cases a <;> cases b <;> cases c <;> simp [descPrec] at h1 h2 ⊢
  linarith

/-- `sort_values(c, ascending=False)` output is descending in the sense
that no later row strictly precedes an earlier one. -/
theorem dfSortValues_desc_pairwise (df : DF) (c : String) :
    (dfSortValues df c false).Pairwise fun p q =>
      descPrec (rowGetNum q.2 c) (rowGetNum p.2 c) = false := by
  unfold dfSortValues
  simp only [Bool.false_eq_true, if_false]
  exact sortBy_pairwise
    (fun p q h => descPrec_asymm (rowGetNum p.2 c) (rowGetNum q.2 c) h)
    (fun p q r h1 h2 => descPrec_ntrans (rowGetNum p.2 c) (rowGetNum q.2 c)
      (rowGetNum r.2 c) h1 h2)
    df

theorem mem_dfSortValues {df : DF} {c : String} {asc : Bool} {p : Ticker × Row} :
    p ∈ dfSortValues df c asc ↔ p ∈ df := mem_sortBy

/-- Unfolding one step of the `mapM` inside `enhance_dataframe`. -/
theorem enhanceF_cons (nameOf : Ticker → Except Unit String) (p : Ticker × Row) (ps : DF) :
    List.mapM (fun p => (nameOf p.1).map fun n => (p.1, rowSet p.2 "종목명" (Val.str n)))
        (p :: ps) =
      match nameOf p.1 with
      | Except.error e => Except.error e
      | Except.ok n =>
        match List.mapM (fun p => (nameOf p.1).map fun n =>
            (p.1, rowSet p.2 "종목명" (Val.str n))) ps with
        | Except.error e => Except.error e
        | Except.ok outs => Except.ok ((p.1, rowSet p.2 "종목명" (Val.str n)) :: outs) := by
  rw [List.mapM_cons]
  cases nameOf p.1 with
  | error e => rfl
  | ok n =>
    cases List.mapM (fun p => (nameOf p.1).map fun n =>
        (p.1, rowSet p.2 "종목명" (Val.str n))) ps with
    | error e => rfl
    | ok outs => rfl

/-- What a successful `enhance_dataframe` call preserves: the index, the
composite scores, the length, and each row up to the added name column. -/
theorem enhance_ok {nameOf : Ticker → Except Unit String} {df out : DF}
    (h : enhance_dataframe nameOf df = Except.ok out) :
    dfIndex out = dfIndex df ∧ scoresOf out = scoresOf df ∧ out.length = df.length ∧
      ∀ p ∈ out, ∃ q ∈ df, p.1 = q.1 ∧ ∃ n, p.2 = rowSet q.2 "종목명" (Val.str n) := by
  unfold enhance_dataframe at h
  split at h
  case isTrue he =>
    obtain rfl : df = out := by simpa using h
    rw [List.isEmpty_iff] at he
    subst he
    exact ⟨rfl, rfl, rfl, by simp⟩
  case isFalse he =>
    clear he
    induction df generalizing out with
    | nil =>
      obtain rfl : out = [] := (Except.ok.inj h).symm
      simp [dfIndex, scoresOf]
    | cons p ps ih =>
      rw [enhanceF_cons] at h
      cases hf : nameOf p.1 with
      | error e => rw [hf] at h; exact absurd h (by simp)
      | ok n =>
        rw [hf] at h
        cases hps : List.mapM (fun p => (nameOf p.1).map fun n =>
            (p.1, rowSet p.2 "종목명" (Val.str n))) ps with
        | error e => rw [hps] at h; exact absurd h (by simp)
        | ok outs =>
          rw [hps] at h
          have hout : out = (p.1, rowSet p.2 "종목명" (Val.str n)) :: outs := by
            have := Except.ok.inj h
            exact this.symm
          obtain ⟨hidx, hsc, hlen, hmem⟩ := ih hps
          subst hout
          refine ⟨?_, ?_, by simp [hlen], ?_⟩
          · simp [dfIndex] at hidx ⊢
            exact hidx
          · have hne : ("복합점수" : String) ≠ "종목명" := by decide
            simp [scoresOf, rowGetNum_rowSet_ne _ _ hne] at hsc ⊢
            exact hsc
          · intro q hq
            rcases List.mem_cons.mp hq with hq1 | hq2
            · exact ⟨p, List.mem_cons_self p ps, by rw [hq1], n, by rw [hq1]⟩
            · obtain ⟨w, hw, hwe, m, hm⟩ := hmem q hq2
              exact ⟨w, List.mem_cons_of_mem p hw, hwe, m, hm⟩

/-! Stage-order facts: every trigger applies its boolean qualifier to the
top-N candidate cut (not to the raw candidate set) and returns at most 3
qualifier-passing rows in descending composite-score order. -/

/-- Shared tail of the five qualified triggers: what holds of a successful
`enhance_dataframe(result.sort_values(...).head(3))` return. -/
theorem sorted_take3_props {nameOf : Ticker → Except Unit String} {Q out : DF}
    (h : enhance_dataframe nameOf ((dfSortValues Q "복합점수" false).take 3) = Except.ok out) :
    dfIndex out = dfIndex ((dfSortValues Q "복합점수" false).take 3) ∧
    out.length ≤ 3 ∧
    (scoresOf out).Pairwise (fun a b => descPrec b a = false) ∧
    ∀ q ∈ out, ∃ w ∈ Q, q.1 = w.1 := by
  obtain ⟨hidx, hsc, hlen, hmem⟩ := enhance_ok h
  refine ⟨hidx, ?_, ?_, ?_⟩
  · rw [hlen]
    have := List.length_take 3 (dfSortValues Q "복합점수" false)
    omega
  · rw [hsc]
    have h1 := dfSortValues_desc_pairwise Q "복합점수"
    have h2 := h1.sublist (List.take_sublist 3 _)
    exact List.pairwise_map.mpr h2
  · intro q hq
    obtain ⟨w, hw, hwe, _⟩ := hmem q hq
    exact ⟨w, mem_sortBy.mp (List.mem_of_mem_take hw), hwe⟩

/-- The same four facts when the returned frame is empty and the qualified
set is empty. -/
theorem sorted_take3_props_empty {Q : DF} (hQ : Q = []) :
    dfIndex ([] : DF) = dfIndex ((dfSortValues Q "복합점수" false).take 3) ∧
    ([] : DF).length ≤ 3 ∧
    (scoresOf ([] : DF)).Pairwise (fun a b => descPrec b a = false) ∧
    ∀ q ∈ ([] : DF), ∃ w ∈ Q, q.1 = w.1 := by
  subst hQ
  refine ⟨rfl, by simp, by simp [scoresOf], by simp⟩

/-- `trigger_morning_volume_surge` returns the qualifier-passing subset of
its top-N score cut, descending, at most 3 rows. -/
theorem surge_spec {nameOf : Ticker → Except Unit String} {s p : DF} {tn : Nat} {out : DF}
    (h : trigger_morning_volume_surge nameOf s p tn = Except.ok out) :
    dfIndex out = dfIndex ((dfSortValues (surgeQualified s p tn) "복합점수" false).take 3) ∧
    out.length ≤ 3 ∧
    (scoresOf out).Pairwise (fun a b => descPrec b a = false) ∧
    ∀ q ∈ out, ∃ w ∈ surgeQualified s p tn, q.1 = w.1 := by
  replace h : (if (surgeComputed s p).isEmpty then Except.ok ([] : DF)
      else if (surgeQualified s p tn).isEmpty then Except.ok []
      else enhance_dataframe nameOf
        ((dfSortValues (surgeQualified s p tn) "복합점수" false).take 3)) = Except.ok out := h
  split at h
  case isTrue hemp =>
    obtain rfl : ([] : DF) = out := Except.ok.inj h
    rw [List.isEmpty_iff] at hemp
    have hq : surgeQualified s p tn = [] := by
      simp [surgeQualified, surgeCandidates, normalize_and_score, hemp, dfFilter]
    exact sorted_take3_props_empty hq
  case isFalse =>
    split at h
    case isTrue hqe =>
      obtain rfl : ([] : DF) = out := Except.ok.inj h
      rw [List.isEmpty_iff] at hqe
      exact sorted_take3_props_empty hqe
    case isFalse => exact sorted_take3_props h

/-- `trigger_morning_gap_up_momentum` returns the qualifier-passing subset
of its top-N score cut, descending, at most 3 rows (its returned rows carry
the extra momentum column on top of a qualified row). -/
theorem gap_spec {nameOf : Ticker → Except Unit String} {s p : DF} {tn : Nat} {out : DF}
    (h : trigger_morning_gap_up_momentum nameOf s p tn = Except.ok out) :
    dfIndex out = dfIndex ((dfSortValues (dfSetCol (gapQualified s p tn) "종합모멘텀" fun _ r =>
      Val.num (oadd (rowGetNum r "갭상승률") (rowGetNum r "장중등락률"))) "복합점수" false).take 3) ∧
    out.length ≤ 3 ∧
    (scoresOf out).Pairwise (fun a b => descPrec b a = false) ∧
    ∀ q ∈ out, ∃ w ∈ gapQualified s p tn, q.1 = w.1 := by
  replace h : (if (gapQualified s p tn).isEmpty then Except.ok ([] : DF)
      else enhance_dataframe nameOf
        ((dfSortValues (dfSetCol (gapQualified s p tn) "종합모멘텀" fun _ r =>
          Val.num (oadd (rowGetNum r "갭상승률") (rowGetNum r "장중등락률")))
          "복합점수" false).take 3)) = Except.ok out := h
  split at h
  case isTrue hqe =>
    obtain rfl : ([] : DF) = out := Except.ok.inj h
    rw [List.isEmpty_iff] at hqe
    have hset : dfSetCol (gapQualified s p tn) "종합모멘텀" (fun _ r =>
        Val.num (oadd (rowGetNum r "갭상승률") (rowGetNum r "장중등락률"))) = [] := by
      rw [hqe]
      rfl
    obtain ⟨h1, h2, h3, _⟩ := sorted_take3_props_empty hset
    exact ⟨h1, h2, h3, by simp⟩
  case isFalse =>
    obtain ⟨hidx, hl, hsorted, hmem⟩ := sorted_take3_props h
    refine ⟨hidx, hl, hsorted, ?_⟩
    intro q hq
    obtain ⟨w, hw, hwe⟩ := hmem q hq
    obtain ⟨u, hu, rfl⟩ := mem_dfSetCol.mp hw
    exact ⟨u, hu, hwe⟩

/-- `trigger_morning_value_to_cap_ratio` returns either an empty frame (a
defensive guard, an empty qualified stage, or the caught lookup failure) or
the qualifier-passing subset of its top-N score cut, descending, at most 3
rows. -/
theorem cap_spec (nameOf : Ticker → Except Unit String) (s p c : DF) (tn : Nat) :
    trigger_morning_value_to_cap_ratio nameOf s p c tn = [] ∨
      (dfIndex (trigger_morning_value_to_cap_ratio nameOf s p c tn) =
        dfIndex ((dfSortValues (capQualified s p c tn) "복합점수" false).take 3) ∧
       (trigger_morning_value_to_cap_ratio nameOf s p c tn).length ≤ 3 ∧
       (scoresOf (trigger_morning_value_to_cap_ratio nameOf s p c tn)).Pairwise
         (fun a b => descPrec b a = false) ∧
       ∀ q ∈ trigger_morning_value_to_cap_ratio nameOf s p c tn,
         ∃ w ∈ capQualified s p c tn, q.1 = w.1) := by
  have hrw : trigger_morning_value_to_cap_ratio nameOf s p c tn =
      (if (capQualified s p c tn).isEmpty then []
       else match enhance_dataframe nameOf
          ((dfSortValues (capQualified s p c tn) "복합점수" false).take 3) with
        | Except.ok df => df
        | Except.error _ => []) := rfl
  rw [hrw]
  split
  case isTrue => exact Or.inl rfl
  case isFalse =>
    cases henh : enhance_dataframe nameOf
        ((dfSortValues (capQualified s p c tn) "복합점수" false).take 3) with
    | error e =>
      simp only [henh]
      left
      trivial
    | ok df =>
      simp only [henh]
      exact Or.inr (sorted_take3_props henh)

/-- `trigger_afternoon_closing_strength` returns the qualifier-passing
subset of its top-N score cut, descending, at most 3 rows. -/
theorem closing_spec {nameOf : Ticker → Except Unit String} {s p : DF} {tn : Nat} {out : DF}
    (h : trigger_afternoon_closing_strength nameOf s p tn = Except.ok out) :
    dfIndex out = dfIndex ((dfSortValues (closingQualified s p tn) "복합점수" false).take 3) ∧
    out.length ≤ 3 ∧
    (scoresOf out).Pairwise (fun a b => descPrec b a = false) ∧
    ∀ q ∈ out, ∃ w ∈ closingQualified s p tn, q.1 = w.1 := by
  replace h : (if (closingQualified s p tn).isEmpty then Except.ok ([] : DF)
      else enhance_dataframe nameOf
        ((dfSortValues (closingQualified s p tn) "복합점수" false).take 3)) = Except.ok out := h
  split at h
  case isTrue hqe =>
    obtain rfl : ([] : DF) = out := Except.ok.inj h
    rw [List.isEmpty_iff] at hqe
    exact sorted_take3_props_empty hqe
  case isFalse => exact sorted_take3_props h

/-- `trigger_afternoon_volume_surge_flat` returns the qualifier-passing
subset of its top-N score cut, descending, at most 3 rows. -/
theorem flat_spec {nameOf : Ticker → Except Unit String} {s p : DF} {tn : Nat} {out : DF}
    (h : trigger_afternoon_volume_surge_flat nameOf s p tn = Except.ok out) :
    dfIndex out = dfIndex ((dfSortValues (flatQualified s p tn) "복합점수" false).take 3) ∧
    out.length ≤ 3 ∧
    (scoresOf out).Pairwise (fun a b => descPrec b a = false) ∧
    ∀ q ∈ out, ∃ w ∈ flatQualified s p tn, q.1 = w.1 := by
  replace h : (if (flatComputed s p).isEmpty then Except.ok ([] : DF)
      else if (flatQualified s p tn).isEmpty then Except.ok []
      else enhance_dataframe nameOf
        ((dfSortValues (flatQualified s p tn) "복합점수" false).take 3)) = Except.ok out := h
  split at h
  case isTrue hemp =>
    obtain rfl : ([] : DF) = out := Except.ok.inj h
    rw [List.isEmpty_iff] at hemp
    have hq : flatQualified s p tn = [] := by
      simp [flatQualified, flatCandidates, normalize_and_score, hemp, dfFilter]
    exact sorted_take3_props_empty hq
  case isFalse =>
    split at h
    case isTrue hqe =>
      obtain rfl : ([] : DF) = out := Except.ok.inj h
      rw [List.isEmpty_iff] at hqe
      exact sorted_take3_props_empty hqe
    case isFalse => exact sorted_take3_props h

/-! Column extrema, lookup and membership plumbing. -/

theorem qmaxL_eq_none {l : List ℚ} : qmaxL l = none ↔ l = [] := by
  cases l with
  | nil => simp [qmaxL]
  | cons q qs =>
    simp only [qmaxL]
    cases qmaxL qs <;> simp

theorem qminL_eq_none {l : List ℚ} : qminL l = none ↔ l = [] := by
  cases l with
  | nil => simp [qminL]
  | cons q qs =>
    simp only [qminL]
    cases qminL qs <;> simp

theorem qmaxL_ge {l : List ℚ} {m q : ℚ} (hm : qmaxL l = some m) (hq : q ∈ l) : q ≤ m := by
  induction l generalizing m with
  | nil => cases hq
  | cons x xs ih =>
    simp only [qmaxL] at hm
    cases hxs : qmaxL xs with
    | none =>
      rw [hxs] at hm
      obtain rfl : x = m := by simpa using hm
      rcases List.mem_cons.mp hq with rfl | hqs
      · exact le_refl q
      · exact absurd (qmaxL_eq_none.mp hxs ▸ hqs) (List.not_mem_nil q)
    | some mx =>
      rw [hxs] at hm
      obtain rfl : max x mx = m := by simpa using hm
      rcases List.mem_cons.mp hq with rfl | hqs
      · exact le_max_left q mx
      · exact le_trans (ih hxs hqs) (le_max_right x mx)

theorem qminL_le {l : List ℚ} {m q : ℚ} (hm : qminL l = some m) (hq : q ∈ l) : m ≤ q := by
  induction l generalizing m with
  | nil => cases hq
  | cons x xs ih =>
    simp only [qminL] at hm
    cases hxs : qminL xs with
    | none =>
      rw [hxs] at hm
      obtain rfl : x = m := by simpa using hm
      rcases List.mem_cons.mp hq with rfl | hqs
      · exact le_refl q
      · exact absurd (qminL_eq_none.mp hxs ▸ hqs) (List.not_mem_nil q)
    | some mx =>
      rw [hxs] at hm
      obtain rfl : min x mx = m := by simpa using hm
      rcases List.mem_cons.mp hq with rfl | hqs
      · exact min_le_left q mx
      · exact le_trans (min_le_right x mx) (ih hxs hqs)

theorem mem_colVals_of_mem {df : DF} {t : Ticker} {r : Row} {c : String} {x : ℚ}
    (hp : (t, r) ∈ df) (hx : rowGetNum r c = some x) : x ∈ colVals df c := by
  simp only [colVals, List.mem_filterMap]
  exact ⟨(t, r), hp, hx⟩

theorem dfGetCell_cons (k : Ticker) (r : Row) (df : DF) (t c : String) :
    dfGetCell ((k, r) :: df) t c = if k = t then rowGet r c else dfGetCell df t c := by
  by_cases h : k = t
  · simp [dfGetCell, List.find?_cons_of_pos, h]
  · simp [dfGetCell, List.find?_cons_of_neg, h]

/-- A lookup in a `.loc[keys]` selection either sees the source frame's
value or misses. -/
theorem dfGetNum_dfLocKeys_cases (df : DF) (keys : List Ticker) (t c : String) :
    dfGetNum (dfLocKeys df keys) t c = dfGetNum df t c ∨
      dfGetNum (dfLocKeys df keys) t c = none := by
  induction keys with
  | nil => right; rfl
  | cons k ks ih =>
    cases hfind : df.find? fun p => p.1 == k with
    | none =>
      have hstep : dfLocKeys df (k :: ks) = dfLocKeys df ks := by
        simp [dfLocKeys, List.filterMap_cons, hfind]
      rw [hstep]
      exact ih
    | some pr =>
      have hstep : dfLocKeys df (k :: ks) = (k, pr.2) :: dfLocKeys df ks := by
        simp [dfLocKeys, List.filterMap_cons, hfind]
      rw [hstep]
      by_cases hk : k = t
      · left
        subst hk
        have hcell : dfGetCell df k c = rowGet pr.2 c := by
          simp [dfGetCell, hfind]
        simp [dfGetNum, dfGetCell_cons, hcell]
      · have hskip : dfGetNum ((k, pr.2) :: dfLocKeys df ks) t c =
            dfGetNum (dfLocKeys df ks) t c := by
          simp [dfGetNum, dfGetCell_cons, hk]
        rw [hskip]
        exact ih

theorem exists_fst_of_mem_dfSetCol {df : DF} {c : String} {f : Ticker → Row → Val}
    {w : Ticker × Row} (h : w ∈ dfSetCol df c f) : ∃ b ∈ df, w.1 = b.1 := by
  obtain ⟨q, hq, rfl⟩ := mem_dfSetCol.mp h
  exact ⟨q, hq, rfl⟩

theorem exists_fst_of_mem_normColsStep {df : DF} {c : String} {w : Ticker × Row}
    (h : w ∈ normColsStep df c) : ∃ b ∈ df, w.1 = b.1 := by
  unfold normColsStep at h
  exact exists_fst_of_mem_dfSetCol h

theorem exists_fst_of_mem_normCols {cols : List String} {df : DF}
    {w : Ticker × Row} (h : w ∈ normCols df cols) : ∃ b ∈ df, w.1 = b.1 := by
  induction cols generalizing df with
  | nil => exact ⟨w, h, rfl⟩
  | cons c cs ih =>
    obtain ⟨b, hb, hbe⟩ := @ih (normColsStep df c) h
    obtain ⟨b2, hb2, hbe2⟩ := exists_fst_of_mem_normColsStep hb
    exact ⟨b2, hb2, hbe.trans hbe2⟩

theorem exists_fst_of_mem_nns {df : DF} {rc ac : String} {rw aw : ℚ} {asc : Bool}
    {w : Ticker × Row} (h : w ∈ normalize_and_score df rc ac rw aw asc) :
    ∃ b ∈ df, w.1 = b.1 := by
  unfold normalize_and_score at h
  split at h
  · exact ⟨w, h, rfl⟩
  · replace h := mem_sortBy.mp h
    unfold nsAddCols at h
    obtain ⟨q2, hq2, rfl⟩ := mem_dfSetCol.mp h
    obtain ⟨q1, hq1, rfl⟩ := mem_dfSetCol.mp hq2
    obtain ⟨q0, hq0, rfl⟩ := mem_dfSetCol.mp hq1
    exact ⟨q0, hq0, rfl⟩

/-! Claim C5 plumbing: a zero previous-day volume becomes NaN, the NaN
propagates through the derived ratio columns, and every threshold
comparison on it evaluates false, excluding the row without any error. -/

theorem odiv_none_right (x : Option ℚ) : odiv x none = none := by cases x <;> rfl

theorem osub_none_right (x : Option ℚ) : osub x none = none := by cases x <;> rfl

theorem mem_dfMaskedSetCol {df : DF} {c : String} {mask : Ticker → Row → Bool}
    {f : Ticker → Row → Val} {p : Ticker × Row} :
    p ∈ dfMaskedSetCol df c mask f ↔
      ∃ q ∈ df, p = if mask q.1 q.2 then (q.1, rowSet q.2 c (f q.1 q.2)) else q := by
  unfold dfMaskedSetCol
  constructor
  · intro h
    obtain ⟨q, hq, he⟩ := List.mem_map.mp h
    exact ⟨q, hq, he.symm⟩
  · rintro ⟨q, hq, rfl⟩
    exact List.mem_map.mpr ⟨q, hq, rfl⟩

/-- In the volume-surge derived table, a ticker with zero previous-day
volume carries undefined (NaN) ratio and growth cells. -/
theorem surge_zero_prev_cells {snapshot prev_snapshot : DF} {t : Ticker} {r : Row}
    (hvol : dfGetNum prev_snapshot t "거래량" = some 0)
    (hr : (t, r) ∈ surgeDerived snapshot prev_snapshot) :
    rowGetNum r "거래량비율" = none ∧ rowGetNum r "거래량증가율" = none := by
  unfold surgeDerived at hr
  obtain ⟨q4, hq4, he4⟩ := mem_dfSetCol.mp hr
  obtain ⟨q3, hq3, rfl⟩ := mem_dfSetCol.mp hq4
  obtain ⟨q2, hq2, rfl⟩ := mem_dfSetCol.mp hq3
  obtain ⟨q1, hq1, rfl⟩ := mem_dfSetCol.mp hq2
  obtain ⟨q0, hq0, rfl⟩ := mem_dfSetCol.mp hq1
  injection he4 with ht hr2
  subst ht
  subst hr2
  have hnan : replace0 (dfGetNum
      (dfLocKeys prev_snapshot (commonIndex snapshot prev_snapshot)) q0.1 "거래량") = none := by
    rcases dfGetNum_dfLocKeys_cases prev_snapshot (commonIndex snapshot prev_snapshot)
        q0.1 "거래량" with hcase | hcase
    · rw [hcase, hvol]
      rfl
    · rw [hcase]
      rfl
  have d1 : ("거래량비율" : String) ≠ "상승여부" := by decide
  have d2 : ("거래량비율" : String) ≠ "전일대비등락률" := by decide
  have d3 : ("거래량비율" : String) ≠ "장중등락률" := by decide
  have d4 : ("거래량비율" : String) ≠ "거래량증가율" := by decide
  have e1 : ("거래량증가율" : String) ≠ "상승여부" := by decide
  have e2 : ("거래량증가율" : String) ≠ "전일대비등락률" := by decide
  have e3 : ("거래량증가율" : String) ≠ "장중등락률" := by decide
  constructor
  · rw [rowGetNum_rowSet_ne _ _ d1, rowGetNum_rowSet_ne _ _ d2, rowGetNum_rowSet_ne _ _ d3,
      rowGetNum_rowSet_ne _ _ d4, rowGetNum_rowSet_num, hnan, odiv_none_right]
  · rw [rowGetNum_rowSet_ne _ _ e1, rowGetNum_rowSet_ne _ _ e2, rowGetNum_rowSet_ne _ _ e3,
      rowGetNum_rowSet_num, rowGetNum_rowSet_num, hnan, odiv_none_right]
    rfl

/-- The volume-surge pre-filter drops every such ticker: the `>= 30`
comparison on a NaN growth value is false. -/
theorem surge_zero_prev_excluded {snapshot prev_snapshot : DF} {t : Ticker}
    (hvol : dfGetNum prev_snapshot t "거래량" = some 0) :
    t ∉ dfIndex (surgeComputed snapshot prev_snapshot) := by
  intro hmem
  simp only [dfIndex, List.mem_map] at hmem
  obtain ⟨pr, hpr, hfst⟩ := hmem
  obtain ⟨tp, rp⟩ := pr
  obtain rfl : tp = t := hfst
  obtain ⟨hin, hpred⟩ := mem_dfFilter.mp hpr
  obtain ⟨_, hgrow⟩ := surge_zero_prev_cells hvol hin
  rw [hgrow] at hpred
  exact absurd hpred (by decide)

/-- In the closing-strength derived table, a ticker with zero previous-day
volume carries an undefined growth cell and a false volume-increase flag. -/
theorem closing_zero_prev_cells {snapshot prev_snapshot : DF} {t : Ticker} {r : Row}
    (hvol : dfGetNum prev_snapshot t "거래량" = some 0)
    (hr : (t, r) ∈ closingDerived snapshot prev_snapshot) :
    rowGetNum r "거래량증가율" = none ∧ rowGet r "거래량증가" = some (Val.bool false) := by
  unfold closingDerived at hr
  obtain ⟨q6, hq6, he6⟩ := mem_dfSetCol.mp hr
  obtain ⟨q5, hq5, rfl⟩ := mem_dfSetCol.mp hq6
  obtain ⟨q4, hq4, rfl⟩ := mem_dfSetCol.mp hq5
  obtain ⟨q3, hq3, rfl⟩ := mem_dfSetCol.mp hq4
  obtain ⟨q2, hq2, rfl⟩ := mem_dfSetCol.mp hq3
  injection he6 with ht hr2
  subst ht
  subst hr2
  have hnan : replace0 (dfGetNum
      (dfLocKeys prev_snapshot (commonIndex snapshot prev_snapshot)) q2.1 "거래량") = none := by
    rcases dfGetNum_dfLocKeys_cases prev_snapshot (commonIndex snapshot prev_snapshot)
        q2.1 "거래량" with hcase | hcase
    · rw [hcase, hvol]
      rfl
    · rw [hcase]
      rfl
  have e1 : ("거래량증가율" : String) ≠ "상승여부" := by decide
  have e2 : ("거래량증가율" : String) ≠ "거래량증가" := by decide
  have e3 : ("거래량증가율" : String) ≠ "전일대비등락률" := by decide
  have e4 : ("거래량증가율" : String) ≠ "장중등락률" := by decide
  have f1 : ("거래량증가" : String) ≠ "상승여부" := by decide
  constructor
  · rw [rowGetNum_rowSet_ne _ _ e1, rowGetNum_rowSet_ne _ _ e2, rowGetNum_rowSet_ne _ _ e3,
      rowGetNum_rowSet_ne _ _ e4, rowGetNum_rowSet_num, hnan, odiv_none_right]
    rfl
  · rw [rowGet_rowSet_ne _ _ f1, rowGet_rowSet_same, hnan, osub_none_right]
    rfl

/-- The closing-strength pre-filter drops every such ticker: its
volume-increase flag is the false NaN comparison. -/
theorem closing_zero_prev_excluded {snapshot prev_snapshot : DF} {t : Ticker}
    (hvol : dfGetNum prev_snapshot t "거래량" = some 0) :
    t ∉ dfIndex (closingComputed snapshot prev_snapshot) := by
  intro hmem
  simp only [dfIndex, List.mem_map] at hmem
  obtain ⟨pr, hpr, hfst⟩ := hmem
  obtain ⟨tp, rp⟩ := pr
  obtain rfl : tp = t := hfst
  obtain ⟨hin, hpred⟩ := mem_dfFilter.mp hpr
  obtain ⟨_, hflag⟩ := closing_zero_prev_cells hvol hin
  rw [hflag] at hpred
  exact absurd hpred (by decide)

/-! Claim C4 plumbing: the min-max normalization formula with the
fixed-divisor fallback. -/

theorem string_ne_norm (s : String) : s ≠ s ++ "_norm" := by
  intro h
  have hlen := congrArg String.length h
  rw [String.length_append] at hlen
  have : ("_norm" : String).length = 5 := rfl
  omega

/-- Arithmetic of `(x - mn) / (mx - mn if mx > mn else 1)` for
`mn ≤ x ≤ mx`. -/
theorem minmax_formula_props {x mn mx : ℚ} (h1 : mn ≤ x) (h2 : x ≤ mx) :
    0 ≤ (x - mn) / (if mn < mx then mx - mn else 1) ∧
    (x - mn) / (if mn < mx then mx - mn else 1) ≤ 1 ∧
    (x = mn → (x - mn) / (if mn < mx then mx - mn else 1) = 0) ∧
    (mn < mx → x = mx → (x - mn) / (if mn < mx then mx - mn else 1) = 1) ∧
    (mn = mx → (x - mn) / (if mn < mx then mx - mn else 1) = 0) := by
  by_cases hlt : mn < mx
  · simp only [hlt, if_true]
    have hd : 0 < mx - mn := sub_pos.mpr hlt
    refine ⟨div_nonneg (sub_nonneg.mpr h1) (le_of_lt hd), ?_, ?_, ?_, ?_⟩
    · rw [div_le_one hd]
      linarith
    · intro hx
      rw [hx]
      simp
    · intro _ hx
      rw [hx]
      exact div_self (ne_of_gt hd)
    · intro he
      exact absurd he (ne_of_lt hlt)
  · simp only [hlt, if_false]
    have hxmn : x = mn := le_antisymm (le_trans h2 (not_lt.mp hlt)) h1
    rw [hxmn]
    simp

/-- The defined extrema of a column that is everywhere finite on a nonempty
frame, with the order between them. -/
theorem col_extrema {df : DF} {c : String} (hne : df ≠ [])
    (hfin : ∀ p ∈ df, ∃ x, rowGetNum p.2 c = some x) :
    ∃ mn mx, colMin df c = some mn ∧ colMax df c = some mx ∧ mn ≤ mx ∧
      ∀ p ∈ df, ∃ x, rowGetNum p.2 c = some x ∧ mn ≤ x ∧ x ≤ mx := by
  obtain ⟨p0, ps, rfl⟩ : ∃ p0 ps, df = p0 :: ps := by
    cases df with
    | nil => exact absurd rfl hne
    | cons a l => exact ⟨a, l, rfl⟩
  obtain ⟨x0, hx0⟩ := hfin p0 (List.mem_cons_self p0 ps)
  have hv0 : x0 ∈ colVals (p0 :: ps) c :=
    mem_colVals_of_mem (t := p0.1) (r := p0.2) (List.mem_cons_self p0 ps) hx0
  have hvne : colVals (p0 :: ps) c ≠ [] := fun h => by simp [h] at hv0
  obtain ⟨mn, hmn⟩ : ∃ mn, colMin (p0 :: ps) c = some mn := by
    cases hq : colMin (p0 :: ps) c with
    | none => exact absurd (qminL_eq_none.mp hq) hvne
    | some m => exact ⟨m, rfl⟩
  obtain ⟨mx, hmx⟩ : ∃ mx, colMax (p0 :: ps) c = some mx := by
    cases hq : colMax (p0 :: ps) c with
    | none => exact absurd (qmaxL_eq_none.mp hq) hvne
    | some m => exact ⟨m, rfl⟩
  refine ⟨mn, mx, hmn, hmx, le_trans (qminL_le hmn hv0) (qmaxL_ge hmx hv0), ?_⟩
  intro p hp
  obtain ⟨x, hx⟩ := hfin p hp
  have hv : x ∈ colVals (p0 :: ps) c := mem_colVals_of_mem (t := p.1) (r := p.2) hp hx
  exact ⟨x, hx, qminL_le hmn hv, qmaxL_ge hmx hv⟩

/-- Min-max normalization of the ratio column inside
`normalize_and_score`: on a nonempty frame with finite values, each
normalized value is `(x - min) / (max - min)` with the divisor fixed to 1
when the column is constant; it lies in [0,1], the minimum maps to 0, the
maximum to 1 when the column is not constant, and every row maps to 0 when
it is. -/
theorem nns_ratio_norm_bounds {df : DF} {rc ac : String} {wr wa : ℚ} {asc : Bool}
    (hne : df ≠ [])
    (hfin : ∀ p ∈ df, ∃ x, rowGetNum p.2 rc = some x)
    (hc1 : rc ++ "_norm" ≠ ac ++ "_norm")
    (hc2 : ("복합점수" : String) ≠ rc ++ "_norm")
    (hc3 : ac ++ "_norm" ≠ rc)
    (hc4 : ("복합점수" : String) ≠ rc) :
    ∃ mn mx, colMin df rc = some mn ∧ colMax df rc = some mx ∧ mn ≤ mx ∧
      ∀ p ∈ normalize_and_score df rc ac wr wa asc, ∃ x,
        rowGetNum p.2 rc = some x ∧
        rowGetNum p.2 (rc ++ "_norm") =
          some ((x - mn) / (if mn < mx then mx - mn else 1)) ∧
        0 ≤ (x - mn) / (if mn < mx then mx - mn else 1) ∧
        (x - mn) / (if mn < mx then mx - mn else 1) ≤ 1 ∧
        (x = mn → (x - mn) / (if mn < mx then mx - mn else 1) = 0) ∧
        (mn < mx → x = mx → (x - mn) / (if mn < mx then mx - mn else 1) = 1) ∧
        (mn = mx → (x - mn) / (if mn < mx then mx - mn else 1) = 0) := by
  obtain ⟨mn, mx, hmn, hmx, hmnmx, hall⟩ := col_extrema hne hfin
  refine ⟨mn, mx, hmn, hmx, hmnmx, ?_⟩
  intro p hp
  unfold normalize_and_score at hp
  rw [if_neg (by simpa [List.isEmpty_iff] using hne)] at hp
  replace hp := mem_sortBy.mp hp
  unfold nsAddCols at hp
  rw [hmn, hmx] at hp
  obtain ⟨q2, hq2, rfl⟩ := mem_dfSetCol.mp hp
  obtain ⟨q1, hq1, rfl⟩ := mem_dfSetCol.mp hq2
  obtain ⟨q0, hq0, rfl⟩ := mem_dfSetCol.mp hq1
  obtain ⟨x, hx, hxmn, hxmx⟩ := hall q0 hq0
  have hrange : (if oGT (some mx) (some mn) then osub (some mx) (some mn)
      else some 1 : Option ℚ) = some (if mn < mx then mx - mn else 1) := by
    by_cases hlt : mn < mx <;> simp [oGT, osub, hlt]
  have hd0 : (if mn < mx then mx - mn else 1) ≠ 0 := by
    by_cases hlt : mn < mx
    · simpa [hlt] using ne_of_gt (sub_pos.mpr hlt)
    · simp [hlt]
  refine ⟨x, ?_, ?_, (minmax_formula_props hxmn hxmx).1, (minmax_formula_props hxmn hxmx).2.1,
    (minmax_formula_props hxmn hxmx).2.2.1, (minmax_formula_props hxmn hxmx).2.2.2.1,
    (minmax_formula_props hxmn hxmx).2.2.2.2⟩
  · rw [rowGetNum_rowSet_ne _ _ (Ne.symm hc4), rowGetNum_rowSet_ne _ _ (Ne.symm hc3),
      rowGetNum_rowSet_ne _ _ (string_ne_norm rc)]
    exact hx
  · rw [rowGetNum_rowSet_ne _ _ (Ne.symm hc2), rowGetNum_rowSet_ne _ _ hc1,
      rowGetNum_rowSet_num, hrange, hx]
    simp [osub, odiv, hd0]

/-- Min-max normalization of the absolute column inside
`normalize_and_score`: the same facts for the second normalized column. -/
theorem nns_abs_norm_bounds {df : DF} {rc ac : String} {wr wa : ℚ} {asc : Bool}
    (hne : df ≠ [])
    (hfin : ∀ p ∈ df, ∃ x, rowGetNum p.2 ac = some x)
    (hc1 : rc ++ "_norm" ≠ ac ++ "_norm")
    (hc2 : ("복합점수" : String) ≠ ac ++ "_norm")
    (hc3 : rc ++ "_norm" ≠ ac)
    (hc4 : ("복합점수" : String) ≠ ac) :
    ∃ mn mx, colMin df ac = some mn ∧ colMax df ac = some mx ∧ mn ≤ mx ∧
      ∀ p ∈ normalize_and_score df rc ac wr wa asc, ∃ x,
        rowGetNum p.2 ac = some x ∧
        rowGetNum p.2 (ac ++ "_norm") =
          some ((x - mn) / (if mn < mx then mx - mn else 1)) ∧
        0 ≤ (x - mn) / (if mn < mx then mx - mn else 1) ∧
        (x - mn) / (if mn < mx then mx - mn else 1) ≤ 1 ∧
        (x = mn → (x - mn) / (if mn < mx then mx - mn else 1) = 0) ∧
        (mn < mx → x = mx → (x - mn) / (if mn < mx then mx - mn else 1) = 1) ∧
        (mn = mx → (x - mn) / (if mn < mx then mx - mn else 1) = 0) := by
  obtain ⟨mn, mx, hmn, hmx, hmnmx, hall⟩ := col_extrema hne hfin
  refine ⟨mn, mx, hmn, hmx, hmnmx, ?_⟩
  intro p hp
  unfold normalize_and_score at hp
  rw [if_neg (by simpa [List.isEmpty_iff] using hne)] at hp
  replace hp := mem_sortBy.mp hp
  unfold nsAddCols at hp
  rw [hmn, hmx] at hp
  obtain ⟨q2, hq2, rfl⟩ := mem_dfSetCol.mp hp
  obtain ⟨q1, hq1, rfl⟩ := mem_dfSetCol.mp hq2
  obtain ⟨q0, hq0, rfl⟩ := mem_dfSetCol.mp hq1
  obtain ⟨x, hx, hxmn, hxmx⟩ := hall q0 hq0
  have hrange : (if oGT (some mx) (some mn) then osub (some mx) (some mn)
      else some 1 : Option ℚ) = some (if mn < mx then mx - mn else 1) := by
    by_cases hlt : mn < mx <;> simp [oGT, osub, hlt]
  have hd0 : (if mn < mx then mx - mn else 1) ≠ 0 := by
    by_cases hlt : mn < mx
    · simpa [hlt] using ne_of_gt (sub_pos.mpr hlt)
    · simp [hlt]
  have hxread : rowGetNum (rowSet q0.2 (rc ++ "_norm") (Val.num (odiv (osub (rowGetNum q0.2 rc)
      (colMin df rc)) (if oGT (colMax df rc) (colMin df rc) then osub (colMax df rc)
      (colMin df rc) else some 1)))) ac = some x := by
    rw [rowGetNum_rowSet_ne _ _ (Ne.symm hc3)]
    exact hx
  refine ⟨x, ?_, ?_, (minmax_formula_props hxmn hxmx).1, (minmax_formula_props hxmn hxmx).2.1,
    (minmax_formula_props hxmn hxmx).2.2.1, (minmax_formula_props hxmn hxmx).2.2.2.1,
    (minmax_formula_props hxmn hxmx).2.2.2.2⟩
  · rw [rowGetNum_rowSet_ne _ _ (Ne.symm hc4), rowGetNum_rowSet_ne _ _ (string_ne_norm ac),
      rowGetNum_rowSet_ne _ _ (Ne.symm hc3)]
    exact hx
  · rw [rowGetNum_rowSet_ne _ _ (Ne.symm hc2), rowGetNum_rowSet_num, hrange]
    rw [hxread]
    simp [osub, odiv, hd0]

/-! Claim C2 plumbing: the premium allocation never holds a ticker twice
and never holds more than 3 tickers.  The invariant is carried through the
two premium passes. -/

theorem dfIndex_dfLocOne (df : DF) (t : Ticker) :
    dfIndex (dfLocOne df t) = (dfIndex df).filter (fun s => s == t) := by
  induction df with
  | nil => rfl
  | cons p ps ih =>
    show dfIndex (List.filter _ (p :: ps)) = _
    rw [List.filter_cons]
    by_cases h : p.1 == t
    · simpa [dfIndex, dfLocOne, List.filter_cons, h] using ih
    · simpa [dfIndex, dfLocOne, List.filter_cons, h] using ih

theorem mem_dfIndex_dfLocOne {df : DF} {t s : Ticker}
    (h : s ∈ dfIndex (dfLocOne df t)) : s = t := by
  rw [dfIndex_dfLocOne] at h
  simpa using (List.of_mem_filter h)

theorem nodup_dfIndex_dfLocOne {df : DF} (t : Ticker) (h : (dfIndex df).Nodup) :
    (dfIndex (dfLocOne df t)).Nodup := by
  rw [dfIndex_dfLocOne]
  exact h.filter _

theorem mem_dictSet_cases {m : List (String × DF)} {k : String} {v : DF}
    {pr : String × DF} (h : pr ∈ dictSet m k v) : pr ∈ m ∨ pr = (k, v) := by
  induction m with
  | nil => simpa [dictSet] using h
  | cons p ps ih =>
    unfold dictSet at h
    split at h
    · rcases List.mem_cons.mp h with h1 | h2
      · exact Or.inr h1
      · exact Or.inl (List.mem_cons_of_mem p h2)
    · rcases List.mem_cons.mp h with h1 | h2
      · exact Or.inl (h1 ▸ List.mem_cons_self p ps)
      · rcases ih h2 with h3 | h3
        · exact Or.inl (List.mem_cons_of_mem p h3)
        · exact Or.inr h3

theorem keys_dictSet_cases {m : List (String × DF)} {k k2 : String} {v : DF}
    (h : k2 ∈ (dictSet m k v).map (fun p => p.1)) :
    k2 ∈ m.map (fun p => p.1) ∨ k2 = k := by
  obtain ⟨pr, hpr, rfl⟩ := List.mem_map.mp h
  rcases mem_dictSet_cases hpr with h1 | h1
  · exact Or.inl (List.mem_map_of_mem _ h1)
  · exact Or.inr (by rw [h1])

theorem lookupDF_entry {m : List (String × DF)} {k : String} :
    lookupDF m k = [] ∨ ∃ pr ∈ m, pr.1 = k ∧ lookupDF m k = pr.2 := by
  unfold lookupDF
  cases hfind : m.find? fun p => p.1 == k with
  | none => exact Or.inl rfl
  | some pr =>
    refine Or.inr ⟨pr, List.mem_of_find?_eq_some hfind, ?_, rfl⟩
    have := List.find?_some hfind
    simpa using this

/-- The running invariant of the premium passes: unique dict keys, unique
chosen tickers, at most 3 of them, every allocated row's ticker chosen and
unique within its category, and categories pairwise disjoint on tickers. -/
def PremInv (st : List (String × DF) × List Ticker) : Prop :=
  (st.1.map (fun p => p.1)).Nodup ∧
  st.2.Nodup ∧
  st.2.length ≤ 3 ∧
  (∀ pr ∈ st.1, (dfIndex pr.2).Nodup ∧ ∀ s ∈ dfIndex pr.2, s ∈ st.2) ∧
  st.1.Pairwise (fun pr qr => ∀ s ∈ dfIndex pr.2, s ∉ dfIndex qr.2)

/-- A guarded dict update preserves the invariant pieces: the new frame's
tickers are either the fresh ticker `tk` or already-chosen tickers from the
category's current chunk. -/
theorem dictSet_inv {m : List (String × DF)} {ch : List Ticker} {k : String}
    {v : DF} {tk : Ticker}
    (hkeys : (m.map (fun p => p.1)).Nodup)
    (hent : ∀ pr ∈ m, (dfIndex pr.2).Nodup ∧ ∀ s ∈ dfIndex pr.2, s ∈ ch)
    (hpw : m.Pairwise (fun pr qr => ∀ s ∈ dfIndex pr.2, s ∉ dfIndex qr.2))
    (htk : tk ∉ ch)
    (hv : (dfIndex v).Nodup)
    (hvsub : ∀ s ∈ dfIndex v, s = tk ∨ (s ∈ dfIndex (lookupDF m k) ∧ s ∈ ch)) :
    ((dictSet m k v).map (fun p => p.1)).Nodup ∧
    (∀ pr ∈ dictSet m k v, (dfIndex pr.2).Nodup ∧ ∀ s ∈ dfIndex pr.2, s ∈ ch ++ [tk]) ∧
    (dictSet m k v).Pairwise (fun pr qr => ∀ s ∈ dfIndex pr.2, s ∉ dfIndex qr.2) := by
  induction m with
  | nil =>
    refine ⟨by simp [dictSet], ?_, by simp [dictSet]⟩
    intro pr hpr
    obtain rfl : pr = (k, v) := by simpa [dictSet] using hpr
    refine ⟨hv, ?_⟩
    intro s hs
    rcases hvsub s hs with rfl | ⟨hlook, _⟩
    · simp
    · have hempty : lookupDF ([] : List (String × DF)) k = [] := rfl
      rw [hempty] at hlook
      exact absurd hlook (by simp [dfIndex])
  | cons p ps ih =>
    rw [List.map_cons, List.nodup_cons] at hkeys
    obtain ⟨hpk_notin, hkeys_tail⟩ := hkeys
    have hpent := hent p (List.mem_cons_self p ps)
    have hent_tail := fun pr hpr => hent pr (List.mem_cons_of_mem p hpr)
    rw [List.pairwise_cons] at hpw
    obtain ⟨hpw_head, hpw_tail⟩ := hpw
    unfold dictSet
    split
    case isTrue hpk =>
      have hlook : lookupDF (p :: ps) k = p.2 := by
        simp [lookupDF, List.find?_cons_of_pos, hpk]
      refine ⟨?_, ?_, ?_⟩
      · rw [List.map_cons, List.nodup_cons]
        exact ⟨hpk ▸ hpk_notin, hkeys_tail⟩
      · intro pr hpr
        rcases List.mem_cons.mp hpr with rfl | hpr2
        · refine ⟨hv, ?_⟩
          intro s hs
          rcases hvsub s hs with rfl | ⟨_, hsch⟩
          · simp
          · simp [hsch]
        · obtain ⟨h1, h2⟩ := hent_tail pr hpr2
          exact ⟨h1, fun s hs => by simp [h2 s hs]⟩
      · rw [List.pairwise_cons]
        refine ⟨?_, hpw_tail⟩
        intro qr hqr s hs
        rcases hvsub s hs with rfl | ⟨hlk, _⟩
        · intro habs
          exact htk ((hent_tail qr hqr).2 s habs)
        · rw [hlook] at hlk
          exact hpw_head qr hqr s hlk
    case isFalse hpk =>
      have hlook : lookupDF (p :: ps) k = lookupDF ps k := by
        simp [lookupDF, List.find?_cons_of_neg, hpk]
      obtain ⟨ihk, ihe, ihp⟩ := ih hkeys_tail hent_tail hpw_tail
        (fun s hs => by rw [hlook] at hvsub; exact hvsub s hs)
      refine ⟨?_, ?_, ?_⟩
      · rw [List.map_cons, List.nodup_cons]
        refine ⟨?_, ihk⟩
        intro habs
        rcases keys_dictSet_cases habs with h1 | h1
        · exact hpk_notin h1
        · exact hpk h1
      · intro pr hpr
        rcases List.mem_cons.mp hpr with rfl | hpr2
        · exact ⟨hpent.1, fun s hs => by simp [hpent.2 s hs]⟩
        · exact ihe pr hpr2
      · rw [List.pairwise_cons]
        refine ⟨?_, ihp⟩
        intro qr hqr s hs
        rcases mem_dictSet_cases hqr with h1 | rfl
        · exact hpw_head qr h1 s hs
        · show s ∉ dfIndex v
          intro habs
          rcases hvsub s habs with rfl | ⟨hlk, _⟩
          · exact htk (hpent.2 s hs)
          · rw [hlook] at hlk
            rcases lookupDF_entry (m := ps) (k := k) with hnone | ⟨er, her, _, heq⟩
            · rw [hnone] at hlk
              simp [dfIndex] at hlk
            · rw [heq] at hlk
              exact hpw_head er her s hs hlk

theorem premInv_init : PremInv ([], []) := by
  refine ⟨by simp, by simp, by simp, by simp, by simp⟩

/-- The first premium pass establishes the invariant from scratch. -/
theorem premiumPass1_inv (triggers : List (String × DF))
    (hidx : ∀ pr ∈ triggers, (dfIndex pr.2).Nodup) :
    PremInv (premiumPass1 triggers) := by
  unfold premiumPass1
  suffices hgen : ∀ (l : List (String × DF)), (∀ pr ∈ l, (dfIndex pr.2).Nodup) →
      ∀ st, PremInv st → PremInv (l.foldl
        (fun acc nt =>
          if ¬ nt.2.isEmpty ∧ acc.2.length < 3 then
            match dfIndex nt.2 with
            | [] => acc
            | top_ticker :: _ =>
              if acc.2.contains top_ticker then acc
              else (dictSet acc.1 nt.1 (dfLocOne nt.2 top_ticker), acc.2 ++ [top_ticker])
          else acc) st) by
    exact hgen triggers hidx ([], []) premInv_init
  intro l
  induction l with
  | nil => intro _ st h; exact h
  | cons nt rest ih =>
    intro hidx2 st hst
    rw [List.foldl_cons]
    refine ih (fun pr hpr => hidx2 pr (List.mem_cons_of_mem nt hpr)) _ ?_
    split
    case isFalse => exact hst
    case isTrue hcond =>
      split
      case h_1 => exact hst
      case h_2 tk ts hdi =>
        split
        case isTrue => exact hst
        case isFalse hcont =>
          obtain ⟨hk, hn, hl, he, hp⟩ := hst
          have htk : tk ∉ st.2 := by simpa using hcont
          obtain ⟨i1, i2, i3⟩ := dictSet_inv (k := nt.1) hk he hp htk
            (nodup_dfIndex_dfLocOne tk (hidx2 nt (List.mem_cons_self nt rest)))
            (fun s hs => Or.inl (mem_dfIndex_dfLocOne hs))
          refine ⟨i1, ?_, ?_, i2, i3⟩
          · simp [List.nodup_append, hn, htk]
          · simp only [List.length_append, List.length_singleton]
            omega

/-- The second premium pass preserves the invariant. -/
theorem premiumPass2_inv (triggers : List (String × DF))
    (sorted : List (String × Ticker × ℚ))
    (hidx : ∀ pr ∈ triggers, (dfIndex pr.2).Nodup)
    (st : List (String × DF) × List Ticker) (hst : PremInv st) :
    PremInv (premiumPass2 triggers sorted st) := by
  unfold premiumPass2
  split
  case isFalse => exact hst
  case isTrue =>
    suffices hgen : ∀ (l : List (String × Ticker × ℚ)) (st2 : List (String × DF) × List Ticker),
        PremInv st2 → PremInv (l.foldl
          (fun acc e =>
            if ¬ acc.2.contains e.2.1 ∧ acc.2.length < 3 then
              let addition := dfLocOne (lookupDF triggers e.1) e.2.1
              let pr :=
                if (acc.1.find? fun p => p.1 == e.1).isSome then
                  dictSet acc.1 e.1 (lookupDF acc.1 e.1 ++ addition)
                else dictSet acc.1 e.1 addition
              (pr, acc.2 ++ [e.2.1])
            else acc) st2) by
      exact hgen sorted st hst
    intro l
    induction l with
    | nil => intro st2 h; exact h
    | cons e rest ih =>
      intro st2 hst2
      rw [List.foldl_cons]
      refine ih _ ?_
      split
      case isFalse => exact hst2
      case isTrue hcond =>
        obtain ⟨hk, hn, hl, he, hp⟩ := hst2
        have htk : e.2.1 ∉ st2.2 := by simpa using hcond.1
        have hlooktrig : (dfIndex (lookupDF triggers e.1)).Nodup := by
          rcases lookupDF_entry (m := triggers) (k := e.1) with hnone | ⟨er, her, _, heq⟩
          · rw [hnone]; simp [dfIndex]
          · rw [heq]; exact hidx er her
        have haddnodup : (dfIndex (dfLocOne (lookupDF triggers e.1) e.2.1)).Nodup :=
          nodup_dfIndex_dfLocOne _ hlooktrig
        have haddel : ∀ s ∈ dfIndex (dfLocOne (lookupDF triggers e.1) e.2.1), s = e.2.1 :=
          fun s hs => mem_dfIndex_dfLocOne hs
        have hlen : st2.2.length < 3 := hcond.2
        split
        case isTrue =>
          have hlookch : ∀ s ∈ dfIndex (lookupDF st2.1 e.1), s ∈ st2.2 := by
            rcases lookupDF_entry (m := st2.1) (k := e.1) with hnone | ⟨er, her, _, heq⟩
            · rw [hnone]; simp [dfIndex]
            · rw [heq]; exact (he er her).2
          have hlooknodup : (dfIndex (lookupDF st2.1 e.1)).Nodup := by
            rcases lookupDF_entry (m := st2.1) (k := e.1) with hnone | ⟨er, her, _, heq⟩
            · rw [hnone]; simp [dfIndex]
            · rw [heq]; exact (he er her).1
          have hvidx : dfIndex (lookupDF st2.1 e.1 ++ dfLocOne (lookupDF triggers e.1) e.2.1) =
              dfIndex (lookupDF st2.1 e.1) ++ dfIndex (dfLocOne (lookupDF triggers e.1) e.2.1) := by
            simp [dfIndex]
          have hv : (dfIndex (lookupDF st2.1 e.1 ++
              dfLocOne (lookupDF triggers e.1) e.2.1)).Nodup := by
            rw [hvidx, List.nodup_append]
            refine ⟨hlooknodup, haddnodup, ?_⟩
            intro s hs habs
            have hse : s = e.2.1 := haddel s habs
            exact htk (hse ▸ hlookch s hs)
          have hvsub : ∀ s ∈ dfIndex (lookupDF st2.1 e.1 ++
              dfLocOne (lookupDF triggers e.1) e.2.1),
              s = e.2.1 ∨ (s ∈ dfIndex (lookupDF st2.1 e.1) ∧ s ∈ st2.2) := by
            intro s hs
            rw [hvidx] at hs
            rcases List.mem_append.mp hs with hs1 | hs2
            · exact Or.inr ⟨hs1, hlookch s hs1⟩
            · exact Or.inl (haddel s hs2)
          obtain ⟨i1, i2, i3⟩ := dictSet_inv (k := e.1) hk he hp htk hv hvsub
          refine ⟨i1, ?_, ?_, i2, i3⟩
          · simp [List.nodup_append, hn, htk]
          · simp only [List.length_append, List.length_singleton]
            omega
        case isFalse =>
          obtain ⟨i1, i2, i3⟩ := dictSet_inv (k := e.1) hk he hp htk haddnodup
            (fun s hs => Or.inl (haddel s hs))
          refine ⟨i1, ?_, ?_, i2, i3⟩
          · simp [List.nodup_append, hn, htk]
          · simp only [List.length_append, List.length_singleton]
            omega

/-- The premium invariant yields the claim: no duplicate tickers across the
premium categories and at most 3 in total. -/
theorem premInv_tierTickers {st : List (String × DF) × List Ticker}
    (h : PremInv st) :
    (tierTickers st.1).Nodup ∧ (tierTickers st.1).length ≤ 3 := by
  obtain ⟨hk, hn, hl, he, hp⟩ := h
  have hnodup : (tierTickers st.1).Nodup := by
    rw [tierTickers, List.nodup_flatten]
    constructor
    · intro l hlabel
      obtain ⟨pr, hpr, rfl⟩ := List.mem_map.mp hlabel
      exact (he pr hpr).1
    · exact List.Pairwise.map _ (fun pr qr hpq s hs => hpq s hs) hp
  have hsub : ∀ s ∈ tierTickers st.1, s ∈ st.2 := by
    intro s hs
    rw [tierTickers, List.mem_flatten] at hs
    obtain ⟨l, hlm, hsl⟩ := hs
    obtain ⟨pr, hpr, rfl⟩ := List.mem_map.mp hlm
    exact (he pr hpr).2 s hsl
  exact ⟨hnodup, le_trans ((hnodup.subperm hsub).length_le) hl⟩

/-! Concrete scenarios reused by the witnesses and counterexamples. -/

/-- Two categories sharing ticker `000001`: the pool-dedup scenario.  The
shared ticker scores 5 in the first category and 9 in the second; a second
ticker scores 7 in the first. -/
def exPoolTriggers : List (String × DF) :=
  [("거래량 급증 상위주", [("000001", [("복합점수", Val.num (some 5))]),
                  ("000002", [("복합점수", Val.num (some 7))])]),
   ("갭 상승 모멘텀 상위주", [("000001", [("복합점수", Val.num (some 9))])])]

/-- A single one-ticker category: the free/premium overlap scenario. -/
def exOverlapTriggers : List (String × DF) :=
  [("거래량 급증 상위주", [("000001", [("복합점수", Val.num (some 5))])])]

/-- The gap-up output on the under-3 scenario (with `top_n = 2`). -/
def exGapOutC3 : DF :=
  ((trigger_morning_gap_up_momentum exNameOk exSnapC3 exPrevC3 2).toOption).getD []

/-- A previous-day snapshot whose ticker `Z` traded zero volume. -/
def exPrevC5 : DF :=
  [("Z", mkSnapRow 100 120 90 100 0 500000000)]

/-- Today's snapshot for the zero-previous-volume scenario. -/
def exSnapC5 : DF :=
  [("Z", mkSnapRow 100 120 90 110 1000 500000000)]

/-- A two-row frame with finite, non-constant `x` and `y` columns. -/
def exDFC4 : DF :=
  [("A", [("x", Val.num (some 1)), ("y", Val.num (some 10))]),
   ("B", [("x", Val.num (some 3)), ("y", Val.num (some 20))])]

/-- A market data provider whose resolved trade date has no rows while the
stepped retry date does: `D0` resolves to `D1` (empty), which re-resolves to
`D2` (one row). -/
def exApiC6 : MarketAPI :=
  { ohlcvByTicker := fun d => if d = "D2" then exSnapC5 else []
    capByTicker := fun _ => [("Z", [("시가총액", Val.num (some 1000000000))])]
    nearestBizDay := fun d => if d = "D0" then "D1" else "D2"
    prevCalendarDay := fun d => d
    tickerName := exNameOk }

/-- Today's snapshot for the daily-rise record scenario: one ticker passing
the intraday-rise filter with a large trade value. -/
def exSnapC7 : DF :=
  [("D", mkSnapRow 100 120 90 110 1000 2000000000)]

/-- The previous-day snapshot for the same scenario. -/
def exPrevC7 : DF :=
  [("D", mkSnapRow 100 120 90 100 1000 2000000000)]

/-- The daily-rise-top output on that scenario. -/
def exOutC7 : DF :=
  ((trigger_afternoon_daily_rise_top exNameOk exSnapC7 exPrevC7 15).toOption).getD []

/-- A two-object heap holding the caller snapshot frames. -/
def exHeapC9 : Heap := ⟨[exSnapC3, exPrevC3]⟩

/-! Pool construction facts for the final selection. -/

/-- The head of a sorted list is maximal: no element of the input strictly
precedes it. -/
theorem sortBy_head_prec {α : Type} {prec : α → α → Bool}
    (hasymm : ∀ a b, prec a b = true → prec b a = false)
    (hntrans : ∀ a b c, prec b a = false → prec c b = false → prec c a = false)
    {l : List α} {e : α} (h : (sortBy prec l).head? = some e) :
    ∀ x ∈ l, prec x e = false := by
  cases hs : sortBy prec l with
  | nil => rw [hs] at h; cases h
  | cons y ys =>
    rw [hs] at h
    obtain rfl : y = e := by simpa using h
    intro x hx
    have hx2 : x ∈ sortBy prec l := mem_sortBy.mpr hx
    rw [hs] at hx2
    rcases List.mem_cons.mp hx2 with rfl | hxs
    · cases hpe : prec x x with
      | false => rfl
      | true => exact absurd (hasymm x x hpe) (by simp [hpe])
    · have hpw := sortBy_pairwise hasymm hntrans l
      rw [hs] at hpw
      exact (List.pairwise_cons.mp hpw).1 x hxs

/-- A sorted list is empty exactly when its input is. -/
theorem sortBy_eq_nil {α : Type} {prec : α → α → Bool} {l : List α} :
    sortBy prec l = [] ↔ l = [] := by
  constructor
  · intro h
    have := (sortBy_perm prec l).length_eq
    rw [h] at this
    exact List.length_eq_zero.mp this.symm
  · intro h
    rw [h]
    rfl

/-- One trigger's pool walk keeps the recorded tickers duplicate-free and
tracked in the seen list. -/
theorem buildPoolStep_inv (nt : String × DF)
    (acc : List Ticker × List (String × Ticker × ℚ))
    (h1 : (poolTickers acc.2).Nodup) (h2 : ∀ t ∈ poolTickers acc.2, t ∈ acc.1) :
    (poolTickers (buildPoolStep acc nt).2).Nodup ∧
    ∀ t ∈ poolTickers (buildPoolStep acc nt).2, t ∈ (buildPoolStep acc nt).1 := by
  unfold buildPoolStep
  split
  case isFalse => exact ⟨h1, h2⟩
  case isTrue =>
    suffices hgen : ∀ (ts : List Ticker)
        (acc : List Ticker × List (String × Ticker × ℚ)), (poolTickers acc.2).Nodup →
        (∀ t ∈ poolTickers acc.2, t ∈ acc.1) →
        (poolTickers (ts.foldl (fun acc t => if acc.1.contains t then acc
          else (acc.1 ++ [t], acc.2 ++ [(nt.1, t, scoreOf nt.2 t)])) acc).2).Nodup ∧
        ∀ t ∈ poolTickers (ts.foldl (fun acc t => if acc.1.contains t then acc
          else (acc.1 ++ [t], acc.2 ++ [(nt.1, t, scoreOf nt.2 t)])) acc).2,
          t ∈ (ts.foldl (fun acc t => if acc.1.contains t then acc
          else (acc.1 ++ [t], acc.2 ++ [(nt.1, t, scoreOf nt.2 t)])) acc).1 by
      exact hgen (dfIndex nt.2) acc h1 h2
    intro ts
    induction ts with
    | nil => intro acc h1 h2; exact ⟨h1, h2⟩
    | cons t ts ih =>
      intro acc h1 h2
      rw [List.foldl_cons]
      split
      case isTrue => exact ih acc h1 h2
      case isFalse hc =>
        refine ih _ ?_ ?_
        · have htn : t ∉ poolTickers acc.2 := fun hmem =>
            hc (by simpa using h2 t hmem)
          simp [poolTickers, List.nodup_append]
          exact ⟨by simpa [poolTickers] using h1, by simpa [poolTickers] using htn⟩
        · intro s hs
          simp only [poolTickers, List.map_append, List.mem_append] at hs
          rcases hs with hs1 | hs2
          · exact List.mem_append_left _ (h2 s hs1)
          · simp at hs2
            simp [hs2]

/-- The flat pool never records a ticker twice. -/
theorem buildPool_nodup (triggers : List (String × DF)) :
    (poolTickers (buildPool triggers)).Nodup := by
  suffices hgen : ∀ (l : List (String × DF))
      (acc : List Ticker × List (String × Ticker × ℚ)), (poolTickers acc.2).Nodup →
      (∀ t ∈ poolTickers acc.2, t ∈ acc.1) →
      (poolTickers (l.foldl buildPoolStep acc).2).Nodup by
    exact hgen triggers ([], []) (by simp [poolTickers]) (by simp [poolTickers])
  intro l
  induction l with
  | nil => intro acc h1 _; exact h1
  | cons nt rest ih =>
    intro acc h1 h2
    rw [List.foldl_cons]
    obtain ⟨g1, g2⟩ := buildPoolStep_inv nt acc h1 h2
    exact ih _ g1 g2

/-- The free pick on a nonempty sorted pool. -/
theorem freeOf_cons (triggers : List (String × DF)) (e : String × Ticker × ℚ)
    (rest : List (String × Ticker × ℚ)) :
    freeOf triggers (e :: rest) = [(e.1, dfLocOne (lookupDF triggers e.1) e.2.1)] := by
  obtain ⟨bt, btk, q⟩ := e
  rfl

/-! Batch-level retry and all-or-nothing output. -/

theorem except_bind_ok {α β : Type} (a : α) (f : α → Except Unit β) :
    (Except.ok a >>= f : Except Unit β) = f a := rfl

theorem except_bind_err {α β : Type} (e : Unit) (f : α → Except Unit β) :
    (Except.error e >>= f : Except Unit β) = Except.error e := rfl

/-- A successful batch run that produced a result pairs every allocation
with the report document built from that same allocation. -/
theorem runBatchFrom_shape (api : MarketAPI) (s : DF) (d tt : String)
    (pr : Alloc × OutputDoc)
    (h : runBatchFrom api s d tt = Except.ok (some pr)) :
    pr.2 = buildOutputDoc pr.1 := by
  unfold runBatchFrom at h
  cases hprev : get_previous_snapshot api d with
  | error e => rw [hprev, except_bind_err] at h; exact absurd h (by simp)
  | ok pp =>
    rw [hprev, except_bind_ok] at h
    cases hcap : get_market_cap_df api d with
    | error e => rw [hcap, except_bind_err] at h; exact absurd h (by simp)
    | ok cap =>
      rw [hcap, except_bind_ok] at h
      by_cases htm : tt = "morning"
      · rw [if_pos htm] at h
        cases h1 : trigger_morning_volume_surge api.tickerName s pp.1 10 with
        | error e => rw [h1, except_bind_err] at h; exact absurd h (by simp)
        | ok r1 =>
          rw [h1, except_bind_ok] at h
          cases h2 : trigger_morning_gap_up_momentum api.tickerName s pp.1 15 with
          | error e => rw [h2, except_bind_err] at h; exact absurd h (by simp)
          | ok r2 =>
            rw [h2, except_bind_ok] at h
            have h3 := Option.some.inj (Except.ok.inj h)
            rw [← h3]
      · by_cases hta : tt = "afternoon"
        · rw [if_neg htm, if_pos hta] at h
          cases h1 : trigger_afternoon_daily_rise_top api.tickerName s pp.1 15 with
          | error e => rw [h1, except_bind_err] at h; exact absurd h (by simp)
          | ok r1 =>
            rw [h1, except_bind_ok] at h
            cases h2 : trigger_afternoon_closing_strength api.tickerName s pp.1 15 with
            | error e => rw [h2, except_bind_err] at h; exact absurd h (by simp)
            | ok r2 =>
              rw [h2, except_bind_ok] at h
              cases h3 : trigger_afternoon_volume_surge_flat api.tickerName s pp.1 20 with
              | error e => rw [h3, except_bind_err] at h; exact absurd h (by simp)
              | ok r3 =>
                rw [h3, except_bind_ok] at h
                have h4 := Option.some.inj (Except.ok.inj h)
                rw [← h4]
        · rw [if_neg htm, if_neg hta] at h
          exact absurd (Except.ok.inj h) (by simp)

/-- When the resolved trade date has no snapshot rows, the batch re-resolves
the date once and is exactly the retried fetch followed by the rest of the
batch at the stepped date. -/
theorem run_batch_eq_retry (api : MarketAPI) (today tt : String)
    (hfail : (api.ohlcvByTicker (api.nearestBizDay today)).isEmpty = true) :
    run_batch api today tt =
      (get_snapshot api (api.nearestBizDay (api.nearestBizDay today))).bind
        (fun s => runBatchFrom api s (api.nearestBizDay (api.nearestBizDay today)) tt) := by
  unfold run_batch
  have h1 : get_snapshot api (api.nearestBizDay today) = Except.error () := by
    unfold get_snapshot
    rw [if_pos hfail]
  simp only [h1]
  cases h2 : get_snapshot api (api.nearestBizDay (api.nearestBizDay today)) with
  | error e => rfl
  | ok s => rfl

/-! The claim theorems. -/

/-- Claim C1 (corrected): the pool built by `select_final_tickers` is
deduplicated by ticker — a ticker appearing in two categories yields one pool
entry, recorded under the first category that reached it with that category's
score — and the free output is empty iff the pool is empty, otherwise exactly
the head of the descending sort, whose score is maximal among the pool entries
(not among all per-category occurrences). -/
theorem select_final_tickers_free_spec (triggers : List (String × DF)) :
    (poolTickers (buildPool triggers)).Nodup ∧
    ((select_final_tickers triggers).free = [] ↔ buildPool triggers = []) ∧
    ∀ e, (sortPool (buildPool triggers)).head? = some e →
      (select_final_tickers triggers).free =
        [(e.1, dfLocOne (lookupDF triggers e.1) e.2.1)] ∧
      e ∈ buildPool triggers ∧
      ∀ x ∈ buildPool triggers, x.2.2 ≤ e.2.2 := by
  have hfree : (select_final_tickers triggers).free =
      freeOf triggers (sortPool (buildPool triggers)) := rfl
  refine ⟨buildPool_nodup triggers, ?_, ?_⟩
  · rw [hfree]
    cases hs : sortPool (buildPool triggers) with
    | nil =>
      constructor
      · intro _
        exact sortBy_eq_nil.mp hs
      · intro _
        rfl
    | cons e rest =>
      rw [freeOf_cons]
      constructor
      · intro h
        cases h
      · intro h
        rw [h] at hs
        cases hs
  · intro e he
    cases hs : sortPool (buildPool triggers) with
    | nil => rw [hs] at he; cases he
    | cons y rest =>
      rw [hs] at he
      have hye : y = e := by simpa using he
      rw [hye] at hs
      have hh : (sortBy (fun a b => decide (b.2.2 < a.2.2))
          (buildPool triggers)).head? = some e := by
        rw [show sortBy (fun a b => decide (b.2.2 < a.2.2)) (buildPool triggers) =
          sortPool (buildPool triggers) from rfl, hs]
        rfl
      have hmax := sortBy_head_prec
        (fun a b h => by simp at h ⊢; linarith)
        (fun a b c h1 h2 => by simp at h1 h2 ⊢; linarith)
        hh
      refine ⟨by rw [hfree, hs, freeOf_cons], ?_, ?_⟩
      · have : e ∈ sortPool (buildPool triggers) := by
          rw [hs]
          exact List.mem_cons_self e rest
        exact mem_sortBy.mp this
      · intro x hx
        exact le_of_not_lt (by simpa using hmax x hx)

/-- Counterexample to the original C1 on `exPoolTriggers`: ticker `000001`
appears in both categories yet the pool holds 2 entries, not 3 — the second
occurrence (score 9) never enters the pool — and the free pick is the
first category's `000002` with score 7, not the globally highest-scoring
occurrence. -/
theorem buildPool_dedup_counterexample :
    ("000001" ∈ dfIndex (lookupDF exPoolTriggers "거래량 급증 상위주") ∧
     "000001" ∈ dfIndex (lookupDF exPoolTriggers "갭 상승 모멘텀 상위주")) ∧
    (buildPool exPoolTriggers).length = 2 ∧
    scoreOf (lookupDF exPoolTriggers "갭 상승 모멘텀 상위주") "000001" = 9 ∧
    (select_final_tickers exPoolTriggers).free =
      [("거래량 급증 상위주",
        dfLocOne (lookupDF exPoolTriggers "거래량 급증 상위주") "000002")] ∧
    scoreOf (lookupDF exPoolTriggers "거래량 급증 상위주") "000002" = 7 := by
  with_unfolding_all decide

/-- Claim C2: over any set of trigger result tables with duplicate-free
ticker indices, the premium mapping of `select_final_tickers` holds each
ticker at most once across all categories and at most 3 tickers in total. -/
theorem select_final_tickers_premium_nodup (triggers : List (String × DF))
    (hidx : ∀ pr ∈ triggers, (dfIndex pr.2).Nodup) :
    (tierTickers (select_final_tickers triggers).premium).Nodup ∧
    (tierTickers (select_final_tickers triggers).premium).length ≤ 3 := by
  have h1 := premiumPass1_inv triggers hidx
  have h2 := premiumPass2_inv triggers (sortPool (buildPool triggers)) hidx
    (premiumPass1 triggers) h1
  exact premInv_tierTickers h2

/-- Witness for C2: the shared-top-ticker scenario satisfies the premium
invariant. -/
theorem select_final_tickers_premium_nodup_witness :
    (tierTickers (select_final_tickers exPoolTriggers).premium).Nodup ∧
    (tierTickers (select_final_tickers exPoolTriggers).premium).length ≤ 3 :=
  select_final_tickers_premium_nodup exPoolTriggers (by decide)

/-- Claim C3: in both cited qualifier triggers the top-N composite-score cut
precedes the boolean qualifier (the `Qualified` stage filters the
`Candidates` cut), and a successful return is the qualifier-passing subset of
those top-N rows, sorted descending by composite score and truncated to at
most 3 rows. -/
theorem trigger_stage_order (nameOf : Ticker → Except Unit String) (s p : DF)
    (tn : Nat) (out out2 : DF)
    (h1 : trigger_morning_volume_surge nameOf s p tn = Except.ok out)
    (h2 : trigger_morning_gap_up_momentum nameOf s p tn = Except.ok out2) :
    (surgeQualified s p tn = dfFilter (surgeCandidates s p tn) fun _ r =>
        decide (rowGet r "상승여부" = some (Val.bool true))) ∧
    dfIndex out = dfIndex ((dfSortValues (surgeQualified s p tn) "복합점수" false).take 3) ∧
    out.length ≤ 3 ∧
    (scoresOf out).Pairwise (fun a b => descPrec b a = false) ∧
    (∀ q ∈ out, ∃ w ∈ surgeQualified s p tn, q.1 = w.1) ∧
    (gapQualified s p tn = dfFilter (gapCandidates s p tn) fun _ r =>
        decide (rowGet r "상승지속" = some (Val.bool true))) ∧
    out2.length ≤ 3 ∧
    (scoresOf out2).Pairwise (fun a b => descPrec b a = false) ∧
    ∀ q ∈ out2, ∃ w ∈ gapQualified s p tn, q.1 = w.1 := by
  obtain ⟨a1, a2, a3, a4⟩ := surge_spec h1
  obtain ⟨b1, b2, b3, b4⟩ := gap_spec h2
  exact ⟨rfl, a1, a2, a3, a4, rfl, b2, b3, b4⟩

/-- Witness for C3 on the under-3 scenario: with `top_n = 2` the surge
output is the qualifier-passing subset of the top-2 cut. -/
theorem trigger_stage_order_witness :
    dfIndex exOutC3 =
      dfIndex ((dfSortValues (surgeQualified exSnapC3 exPrevC3 2) "복합점수" false).take 3) ∧
    exOutC3.length ≤ 3 ∧
    exGapOutC3.length ≤ 3 := by
  have h := trigger_stage_order exNameOk exSnapC3 exPrevC3 2 exOutC3 exGapOutC3
    (by with_unfolding_all rfl) (by with_unfolding_all rfl)
  exact ⟨h.2.1, h.2.2.1, h.2.2.2.2.2.2.1⟩

/-- Claim C4: on a nonempty frame whose scored columns are everywhere finite
(and do not collide with the derived column names), each normalized value is
`(x − min) / (max − min)` with the divisor fixed to 1 for a constant column:
it lies in [0,1], the minimum input maps to 0, the maximum to 1 when the
column is non-constant, and every row maps to 0 when it is constant. -/
theorem normalize_and_score_minmax (df : DF) (rc ac : String) (wr wa : ℚ)
    (asc : Bool) (hne : df ≠ [])
    (hfinr : ∀ p ∈ df, (rowGetNum p.2 rc).isSome = true)
    (hfina : ∀ p ∈ df, (rowGetNum p.2 ac).isSome = true)
    (hc1 : rc ++ "_norm" ≠ ac ++ "_norm")
    (hc2 : ("복합점수" : String) ≠ rc ++ "_norm")
    (hc3 : ac ++ "_norm" ≠ rc)
    (hc4 : ("복합점수" : String) ≠ rc)
    (hd2 : ("복합점수" : String) ≠ ac ++ "_norm")
    (hd3 : rc ++ "_norm" ≠ ac)
    (hd4 : ("복합점수" : String) ≠ ac) :
    (∃ mn mx, colMin df rc = some mn ∧ colMax df rc = some mx ∧ mn ≤ mx ∧
      ∀ p ∈ normalize_and_score df rc ac wr wa asc, ∃ x,
        rowGetNum p.2 rc = some x ∧
        rowGetNum p.2 (rc ++ "_norm") =
          some ((x - mn) / (if mn < mx then mx - mn else 1)) ∧
        0 ≤ (x - mn) / (if mn < mx then mx - mn else 1) ∧
        (x - mn) / (if mn < mx then mx - mn else 1) ≤ 1 ∧
        (x = mn → (x - mn) / (if mn < mx then mx - mn else 1) = 0) ∧
        (mn < mx → x = mx → (x - mn) / (if mn < mx then mx - mn else 1) = 1) ∧
        (mn = mx → (x - mn) / (if mn < mx then mx - mn else 1) = 0)) ∧
    (∃ mn mx, colMin df ac = some mn ∧ colMax df ac = some mx ∧ mn ≤ mx ∧
      ∀ p ∈ normalize_and_score df rc ac wr wa asc, ∃ x,
        rowGetNum p.2 ac = some x ∧
        rowGetNum p.2 (ac ++ "_norm") =
          some ((x - mn) / (if mn < mx then mx - mn else 1)) ∧
        0 ≤ (x - mn) / (if mn < mx then mx - mn else 1) ∧
        (x - mn) / (if mn < mx then mx - mn else 1) ≤ 1 ∧
        (x = mn → (x - mn) / (if mn < mx then mx - mn else 1) = 0) ∧
        (mn < mx → x = mx → (x - mn) / (if mn < mx then mx - mn else 1) = 1) ∧
        (mn = mx → (x - mn) / (if mn < mx then mx - mn else 1) = 0)) :=
  ⟨nns_ratio_norm_bounds hne
      (fun p hp => Option.isSome_iff_exists.mp (hfinr p hp)) hc1 hc2 hc3 hc4,
    nns_abs_norm_bounds hne
      (fun p hp => Option.isSome_iff_exists.mp (hfina p hp)) hc1 hd2 hd3 hd4⟩

/-- Witness for C4 on a concrete two-row frame with non-constant columns. -/
theorem normalize_and_score_minmax_witness :
    ∃ mn mx, colMin exDFC4 "x" = some mn ∧ colMax exDFC4 "x" = some mx ∧ mn ≤ mx ∧
      ∀ p ∈ normalize_and_score exDFC4 "x" "y" (6/10) (4/10) false, ∃ v,
        rowGetNum p.2 "x" = some v ∧
        rowGetNum p.2 ("x" ++ "_norm") =
          some ((v - mn) / (if mn < mx then mx - mn else 1)) ∧
        0 ≤ (v - mn) / (if mn < mx then mx - mn else 1) ∧
        (v - mn) / (if mn < mx then mx - mn else 1) ≤ 1 ∧
        (v = mn → (v - mn) / (if mn < mx then mx - mn else 1) = 0) ∧
        (mn < mx → v = mx → (v - mn) / (if mn < mx then mx - mn else 1) = 1) ∧
        (mn = mx → (v - mn) / (if mn < mx then mx - mn else 1) = 0) :=
  (normalize_and_score_minmax exDFC4 "x" "y" (6/10) (4/10) false (by decide)
    (by decide) (by decide) (by decide) (by decide) (by decide) (by decide)
    (by decide) (by decide) (by decide)).1

/-- Claim C5: a ticker with zero prior-day volume gets undefined (NaN)
volume-ratio and volume-growth cells rather than raising; the NaN propagates
(never silently 0), the threshold comparisons on it are false, and the row is
excluded from the qualifying pre-filters of both cited triggers. -/
theorem zero_prev_volume_nan (snapshot prev_snapshot : DF) (t : Ticker)
    (hvol : dfGetNum prev_snapshot t "거래량" = some 0) :
    (∀ r, (t, r) ∈ surgeDerived snapshot prev_snapshot →
      rowGetNum r "거래량비율" = none ∧ rowGetNum r "거래량증가율" = none) ∧
    t ∉ dfIndex (surgeComputed snapshot prev_snapshot) ∧
    (∀ r, (t, r) ∈ closingDerived snapshot prev_snapshot →
      rowGetNum r "거래량증가율" = none ∧ rowGet r "거래량증가" = some (Val.bool false)) ∧
    t ∉ dfIndex (closingComputed snapshot prev_snapshot) ∧
    oGE (none : Option ℚ) (some 30) = false :=
  ⟨fun _ hr => surge_zero_prev_cells hvol hr,
   surge_zero_prev_excluded hvol,
   fun _ hr => closing_zero_prev_cells hvol hr,
   closing_zero_prev_excluded hvol, rfl⟩

/-- Witness for C5: ticker `Z` trades zero volume on the previous day. -/
theorem zero_prev_volume_nan_witness :
    (∀ r, ("Z", r) ∈ surgeDerived exSnapC5 exPrevC5 →
      rowGetNum r "거래량비율" = none ∧ rowGetNum r "거래량증가율" = none) ∧
    "Z" ∉ dfIndex (surgeComputed exSnapC5 exPrevC5) ∧
    (∀ r, ("Z", r) ∈ closingDerived exSnapC5 exPrevC5 →
      rowGetNum r "거래량증가율" = none ∧ rowGet r "거래량증가" = some (Val.bool false)) ∧
    "Z" ∉ dfIndex (closingComputed exSnapC5 exPrevC5) ∧
    oGE (none : Option ℚ) (some 30) = false :=
  zero_prev_volume_nan exSnapC5 exPrevC5 "Z" rfl

/-- Claim C6: when the resolved trade date has no snapshot rows, the batch
retries exactly once at the re-stepped business day — the whole run equals the
retried fetch followed by the rest of the batch at that date — a second empty
fetch aborts the run with the single failure, and every successful run pairs
the full allocation with the report document built from that allocation (no
partial output). -/
theorem run_batch_retry_spec (api : MarketAPI) (today tt : String)
    (hfail : (api.ohlcvByTicker (api.nearestBizDay today)).isEmpty = true) :
    (run_batch api today tt =
      (get_snapshot api (api.nearestBizDay (api.nearestBizDay today))).bind
        (fun s => runBatchFrom api s (api.nearestBizDay (api.nearestBizDay today)) tt)) ∧
    ((api.ohlcvByTicker (api.nearestBizDay (api.nearestBizDay today))).isEmpty = true →
      run_batch api today tt = Except.error ()) ∧
    ∀ pr, run_batch api today tt = Except.ok (some pr) → pr.2 = buildOutputDoc pr.1 := by
  have heq := run_batch_eq_retry api today tt hfail
  refine ⟨heq, ?_, ?_⟩
  · intro h2
    rw [heq]
    have hsnap : get_snapshot api (api.nearestBizDay (api.nearestBizDay today)) =
        Except.error () := by
      unfold get_snapshot
      rw [if_pos h2]
    rw [hsnap]
    rfl
  · intro pr hpr
    rw [heq] at hpr
    cases h2 : get_snapshot api (api.nearestBizDay (api.nearestBizDay today)) with
    | error e => rw [h2] at hpr; exact Except.noConfusion hpr
    | ok s =>
      rw [h2] at hpr
      exact runBatchFrom_shape api s (api.nearestBizDay (api.nearestBizDay today)) tt pr hpr

/-- Witness for C6 at the two-step market stub, whose first resolved date
has no rows and whose stepped date has one. -/
theorem run_batch_retry_spec_witness :
    (run_batch exApiC6 "D0" "morning" =
      (get_snapshot exApiC6 (exApiC6.nearestBizDay (exApiC6.nearestBizDay "D0"))).bind
        (fun s => runBatchFrom exApiC6 s
          (exApiC6.nearestBizDay (exApiC6.nearestBizDay "D0")) "morning")) ∧
    ((exApiC6.ohlcvByTicker
        (exApiC6.nearestBizDay (exApiC6.nearestBizDay "D0"))).isEmpty = true →
      run_batch exApiC6 "D0" "morning" = Except.error ()) ∧
    ∀ pr, run_batch exApiC6 "D0" "morning" = Except.ok (some pr) →
      pr.2 = buildOutputDoc pr.1 :=
  run_batch_retry_spec exApiC6 "D0" "morning" rfl

/-- Claim C7 (corrected): every output stock record carries the six base
fields code, name, current_price, change_rate, volume and trade_value,
followed by the first matching branch of the category-specific chain — which
can be empty: a record whose frame has no marker column in a matching
position (daily-rise-top records, and volume-surge-flat records, whose
growth column fails the chain's category-name guard) carries no
category-specific field at all. -/
theorem stock_info_fields (trigger_type : String) (df : DF) (t : Ticker) :
    (stock_info trigger_type df t).map (fun p => p.1) =
      ["code", "name", "current_price", "change_rate", "volume", "trade_value"] ++
      (if dfColMem df "거래량증가율" ∧ trigger_type = "거래량 급증 상위주" then
        ["volume_increase"]
       else if dfColMem df "갭상승률" then ["gap_rate"]
       else if dfColMem df "거래대금비율" then ["trade_value_ratio", "market_cap"]
       else if dfColMem df "마감강도" then ["closing_strength"]
       else []) := by
  simp only [stock_info, List.map_append]
  congr 1
  split_ifs <;> rfl

/-- Counterexample to the original C7: a record of the daily-rise-top
category carries only the six base fields and no category-specific field. -/
theorem stock_info_no_extra_counterexample :
    trigger_afternoon_daily_rise_top exNameOk exSnapC7 exPrevC7 15 = Except.ok exOutC7 ∧
    dfIndex exOutC7 = ["D"] ∧
    (stock_info "일중 상승률 상위주" exOutC7 "D").map (fun p => p.1) =
      ["code", "name", "current_price", "change_rate", "volume", "trade_value"] :=
  ⟨by with_unfolding_all rfl, by with_unfolding_all rfl, by with_unfolding_all rfl⟩

/-- Claim C8 (the code lacks the specified fallback): a failing ticker-name
lookup propagates out of `enhance_dataframe` on every nonempty frame instead
of degrading the record to the raw ticker code. -/
theorem enhance_dataframe_propagates_failure (df : DF)
    (hne : df.isEmpty = false) :
    enhance_dataframe (fun _ => Except.error ()) df = Except.error () := by
  cases df with
  | nil => cases hne
  | cons p ps =>
    unfold enhance_dataframe
    rw [if_neg (by simp), enhanceF_cons (fun _ => Except.error ()) p ps]

/-- Witness for C8: the lookup failure surfaces on the one-row frame. -/
theorem enhance_dataframe_propagates_failure_witness :
    enhance_dataframe (fun _ => Except.error ()) exSnapC5 = Except.error () :=
  enhance_dataframe_propagates_failure exSnapC5 rfl

/-- Claim C9: each of the six trigger pipelines, run over the object heap,
leaves every pre-existing object — in particular the caller's snapshot and
previous-day snapshot frames — unchanged: all in-place writes go to locally
allocated copies. -/
theorem triggers_preserve_snapshots (nameOf : Ticker → String) (h : Heap)
    (rS rP rC tn r : Nat) (hr : r < h.objs.length) :
    heapGet (surgeHeap nameOf h rS rP tn).2 r = heapGet h r ∧
    heapGet (gapHeap nameOf h rS rP tn).2 r = heapGet h r ∧
    heapGet (capHeap nameOf h rS rP rC tn).2 r = heapGet h r ∧
    heapGet (dailyHeap nameOf h rS rP tn).2 r = heapGet h r ∧
    heapGet (closingHeap nameOf h rS rP tn).2 r = heapGet h r ∧
    heapGet (flatHeap nameOf h rS rP tn).2 r = heapGet h r :=
  ⟨(surgeHeap_lowAgree nameOf h rS rP tn).2 r hr,
   (gapHeap_lowAgree nameOf h rS rP tn).2 r hr,
   (capHeap_lowAgree nameOf h rS rP rC tn).2 r hr,
   (dailyHeap_lowAgree nameOf h rS rP tn).2 r hr,
   (closingHeap_lowAgree nameOf h rS rP tn).2 r hr,
   (flatHeap_lowAgree nameOf h rS rP tn).2 r hr⟩

/-- Witness for C9 on the two-object heap holding the snapshot frames. -/
theorem triggers_preserve_snapshots_witness :
    heapGet (surgeHeap (fun t => t) exHeapC9 0 1 2).2 0 = heapGet exHeapC9 0 ∧
    heapGet (gapHeap (fun t => t) exHeapC9 0 1 2).2 0 = heapGet exHeapC9 0 ∧
    heapGet (capHeap (fun t => t) exHeapC9 0 1 0 2).2 0 = heapGet exHeapC9 0 ∧
    heapGet (dailyHeap (fun t => t) exHeapC9 0 1 2).2 0 = heapGet exHeapC9 0 ∧
    heapGet (closingHeap (fun t => t) exHeapC9 0 1 2).2 0 = heapGet exHeapC9 0 ∧
    heapGet (flatHeap (fun t => t) exHeapC9 0 1 2).2 0 = heapGet exHeapC9 0 :=
  triggers_preserve_snapshots (fun t => t) exHeapC9 0 1 0 2 0 (by decide)

/-- Claim C10: the premium tiers are computed with no reference to the free
selection — the premium field literally equals the free-independent
`premiumOf` on every input — and on `exOverlapTriggers` the free pick's
ticker `000001` also fills a premium slot, so the two tiers overlap. -/
theorem premium_ignores_free :
    (∀ triggers, (select_final_tickers triggers).premium = premiumOf triggers) ∧
    (select_final_tickers exOverlapTriggers).free =
      [("거래량 급증 상위주",
        dfLocOne (lookupDF exOverlapTriggers "거래량 급증 상위주") "000001")] ∧
    "000001" ∈ tierTickers (select_final_tickers exOverlapTriggers).premium := by
  refine ⟨fun triggers => rfl, ?_, ?_⟩
  · with_unfolding_all decide
  · with_unfolding_all decide

end TriggerBatch
